import Mathlib

/-!
# ProdVision independent-row storage engine: a shallow embedding

This file embeds the independent-row SQLite adapter
(`independent_row_adapter.py`) of the ProdVision dashboard into Lean 4 and
proves/refutes the specification claims about it.

Modelling conventions:
* A SQLite `entries` row is a `Row`; `TEXT` columns that the adapter may
  leave `NULL` are `Option String` (`none` = SQL `NULL`); columns the
  adapter always writes are `String`.
* The ~32 "common" columns that are only ever copied verbatim are a single
  function field `common : CommonIdx → String` (one name per column).
* Timestamps (`datetime.utcnow().isoformat()`) are abstracted as a `Nat`
  passed in as `now`; `AUTOINCREMENT` ids come from `Store.nextId`.
* Caller-supplied JSON dicts are structures; a key read with
  `d.get(k, '')` is modelled as a `String` (absent key = `""`), a key whose
  `None`-ness the code inspects is `Option String`, and `time_loss` /
  `description` in item patches distinguish absent key from JSON null via
  `Option (Option String)`.
* Transaction failure points present in the code (the `raise` in
  `_create_new_related_row`, an insert failing mid-`create_entry`) are
  modelled with `Except` / an explicit failure oracle; `rollback` returns
  the original store.
-/

set_option maxHeartbeats 1000000

namespace ProdVision

/-- Python `str.strip()` on the whitespace characters relevant here. -/
def pyStrip (s : String) : String :=
  ((s.data.dropWhile Char.isWhitespace).reverse.dropWhile Char.isWhitespace).reverse.asString

/-- SQLite `TRIM(x)`: strips space characters (0x20) only. -/
def sqlTrim (s : String) : String :=
  ((s.data.dropWhile (· = ' ')).reverse.dropWhile (· = ' ')).reverse.asString

/-- SQLite `UPPER(x)`: ASCII uppercasing. -/
def sqlUpper (s : String) : String := (s.data.map Char.toUpper).asString

/-- `row_type` discriminator column (`main | prb | hiim | issue`). -/
inductive RowType where
  | main | prb | hiim | issue
deriving DecidableEq

/-- Names of the common columns that are copied verbatim onto every row of a
logical entry and never inspected individually by the adapter logic.  These
are exactly the entries of the `common_fields` list in
`_create_new_related_row`. -/
inductive CommonIdx where
  | prcMailText | prcMailStatus | cpAlertsText | cpAlertsStatus
  | qualityStatus | qualityLegacy | qualityTarget | remarks
  | valoText | valoStatus | sensiText | sensiStatus
  | cfRaText | cfRaStatus | acqText | rootCauseApplication
  | rootCauseType | xvaRemarks | closing | iteration | regIssue
  | actionTakenAndUpdate | regStatus | regPrb | regHiim
  | backlogItem | timings | puntualityIssue | quality
  | qualityIssue | othersPrb | othersHiim
deriving DecidableEq, Fintype, Repr

/-- One row of the `entries` table. -/
structure Row where
  id : Nat
  date : String
  day : String
  applicationName : String
  rowType : RowType
  groupingKey : String
  rowPosition : Nat
  common : CommonIdx → String
  /-- `timings_status`: copied by `create_entry` but absent from the
  `common_fields` list of `_create_new_related_row` (hence `NULL` on rows
  created through the update path). -/
  timingsStatus : Option String
  /-- `business_chain`: same copying asymmetry as `timings_status`. -/
  businessChain : Option String
  infraWeekendManual : Option Int
  prbIdNumber : Option String
  prbIdStatus : Option String
  prbLink : Option String
  hiimIdNumber : Option String
  hiimIdStatus : Option String
  hiimLink : Option String
  issueDescription : Option String
  timeLoss : Option String
  createdAt : Nat
  updatedAt : Nat
deriving DecidableEq

/-- The per-application SQLite database: the `entries` table plus the next
`AUTOINCREMENT` rowid. -/
structure Store where
  rows : List Row
  nextId : Nat
deriving DecidableEq

def emptyStore : Store := ⟨[], 1⟩

/-- `generate_grouping_key`: `f"{date}_{application_name}"`. -/
def generate_grouping_key (date applicationName : String) : String :=
  date ++ "_" ++ applicationName

/-- One element of a `prbs` input array in `create_entry`.
`prbIdNumber` is `Option` because the code checks it against `None`;
the other keys are read with a `''` default. -/
structure PrbItem where
  prbIdNumber : Option String
  prbIdStatus : String
  prbLink : String
deriving DecidableEq

/-- One element of a `hiims` input array in `create_entry`. -/
structure HiimItem where
  hiimIdNumber : Option String
  hiimIdStatus : String
  hiimLink : String
deriving DecidableEq

/-- One element of an `issues` input array in `create_entry`. -/
structure IssueItem where
  description : String
  timeLoss : String
deriving DecidableEq

/-- The caller-supplied `entry_data` dict for `create_entry`.  Scalar keys
read with a `''` default are plain `String`s; `grouping_key` is kept as the
(possibly stale) caller-supplied value so that claims about its overriding
can be stated. -/
structure EntryData where
  date : String
  day : String
  applicationName : String
  groupingKey : Option String
  common : CommonIdx → String
  timingsStatus : String
  businessChain : String
  infraWeekendManual : Option Int
  prbIdNumberLegacy : String
  prbIdStatusLegacy : String
  prbLinkLegacy : String
  hiimIdNumberLegacy : String
  hiimIdStatusLegacy : String
  hiimLinkLegacy : String
  issueDescriptionLegacy : String
  timeLossLegacy : String
  prbs : List (Option PrbItem)
  hiims : List (Option HiimItem)
  issues : List (Option IssueItem)

/-- The fixed PRB link template of `create_entry`. -/
def prbLinkTemplate (n : String) : String :=
  "https://unity.itsm.socgen/saw/Problem/" ++ n ++ "/general"

/-- The fixed HIIM link template of `create_entry`. -/
def hiimLinkTemplate (n : String) : String :=
  "https://unity.itsm.socgen/saw/custom/HighImpactIncident_c/details/" ++ n ++ "/general"

/-- `str(prb.get('prb_id_number', '')) if ... is not None else ''`. -/
def prbIdOf (it : PrbItem) : String := it.prbIdNumber.getD ""

def hiimIdOf (it : HiimItem) : String := it.hiimIdNumber.getD ""

/-- The `prb_link` actually stored by `create_entry` for an array item:
synthesized from the template when no link was supplied but a number was. -/
def prbLinkOf (it : PrbItem) : String :=
  if it.prbLink = "" ∧ prbIdOf it ≠ "" then prbLinkTemplate (prbIdOf it) else it.prbLink

def hiimLinkOf (it : HiimItem) : String :=
  if it.hiimLink = "" ∧ hiimIdOf it ≠ "" then hiimLinkTemplate (hiimIdOf it) else it.hiimLink

/-- The `main` row built by `create_entry` (`row_type='main'`,
`row_position=0`; legacy single-value PRB/HIIM/issue fields only when the
corresponding array is absent/empty). -/
def mainRowOf (e : EntryData) (now : Nat) (rid : Nat) : Row :=
  let mainPrbId := if e.prbs = [] then e.prbIdNumberLegacy else ""
  let mainPrbLink0 := if e.prbs = [] then e.prbLinkLegacy else ""
  let mainPrbLink := if mainPrbLink0 = "" ∧ mainPrbId ≠ "" then prbLinkTemplate mainPrbId else mainPrbLink0
  let mainHiimId := if e.hiims = [] then e.hiimIdNumberLegacy else ""
  let mainHiimLink0 := if e.hiims = [] then e.hiimLinkLegacy else ""
  let mainHiimLink := if mainHiimLink0 = "" ∧ mainHiimId ≠ "" then hiimLinkTemplate mainHiimId else mainHiimLink0
  { id := rid
    date := e.date
    day := e.day
    applicationName := e.applicationName
    rowType := .main
    groupingKey := generate_grouping_key e.date e.applicationName
    rowPosition := 0
    common := e.common
    timingsStatus := some e.timingsStatus
    businessChain := some e.businessChain
    infraWeekendManual := e.infraWeekendManual
    prbIdNumber := some mainPrbId
    prbIdStatus := some (if e.prbs = [] then e.prbIdStatusLegacy else "")
    prbLink := some mainPrbLink
    hiimIdNumber := some mainHiimId
    hiimIdStatus := some (if e.hiims = [] then e.hiimIdStatusLegacy else "")
    hiimLink := some mainHiimLink
    issueDescription := some (if e.issues = [] then e.issueDescriptionLegacy else "")
    timeLoss := some (if e.issues = [] then e.timeLossLegacy else "")
    createdAt := now
    updatedAt := now }

/-- A `prb` row for one non-null array item (`row_position` = the item's
index in the input array; other kinds' fields cleared to `''`). -/
def mkPrbRow (e : EntryData) (now : Nat) (it : PrbItem) (pos rid : Nat) : Row :=
  { id := rid
    date := e.date
    day := e.day
    applicationName := e.applicationName
    rowType := .prb
    groupingKey := generate_grouping_key e.date e.applicationName
    rowPosition := pos
    common := e.common
    timingsStatus := some e.timingsStatus
    businessChain := some e.businessChain
    infraWeekendManual := e.infraWeekendManual
    prbIdNumber := some (prbIdOf it)
    prbIdStatus := some it.prbIdStatus
    prbLink := some (prbLinkOf it)
    hiimIdNumber := some ""
    hiimIdStatus := some ""
    hiimLink := some ""
    issueDescription := some ""
    timeLoss := some ""
    createdAt := now
    updatedAt := now }

def mkHiimRow (e : EntryData) (now : Nat) (it : HiimItem) (pos rid : Nat) : Row :=
  { id := rid
    date := e.date
    day := e.day
    applicationName := e.applicationName
    rowType := .hiim
    groupingKey := generate_grouping_key e.date e.applicationName
    rowPosition := pos
    common := e.common
    timingsStatus := some e.timingsStatus
    businessChain := some e.businessChain
    infraWeekendManual := e.infraWeekendManual
    prbIdNumber := some ""
    prbIdStatus := some ""
    prbLink := some ""
    hiimIdNumber := some (hiimIdOf it)
    hiimIdStatus := some it.hiimIdStatus
    hiimLink := some (hiimLinkOf it)
    issueDescription := some ""
    timeLoss := some ""
    createdAt := now
    updatedAt := now }

def mkIssueRow (e : EntryData) (now : Nat) (it : IssueItem) (pos rid : Nat) : Row :=
  { id := rid
    date := e.date
    day := e.day
    applicationName := e.applicationName
    rowType := .issue
    groupingKey := generate_grouping_key e.date e.applicationName
    rowPosition := pos
    common := e.common
    timingsStatus := some e.timingsStatus
    businessChain := some e.businessChain
    infraWeekendManual := e.infraWeekendManual
    prbIdNumber := some ""
    prbIdStatus := some ""
    prbLink := some ""
    hiimIdNumber := some ""
    hiimIdStatus := some ""
    hiimLink := some ""
    issueDescription := some it.description
    timeLoss := some it.timeLoss
    createdAt := now
    updatedAt := now }

/-- The `for item_set_position, item in enumerate(array): if item is None:
continue; ... _insert_row(...)` loop shared by the three child kinds of
`create_entry`: `None` placeholders are skipped (no row, no id consumed),
a non-null item becomes a row whose position is its array index and whose
id is the next `AUTOINCREMENT` value. -/
def childRows (mk : α → Nat → Nat → Row) : List (Option α) → Nat → Nat → List Row
  | [], _, _ => []
  | none :: rest, pos, rid => childRows mk rest (pos + 1) rid
  | some it :: rest, pos, rid => mk it pos rid :: childRows mk rest (pos + 1) (rid + 1)

/-- Number of non-null items of an input array (= ids consumed by its
insertion loop). -/
def countSome (l : List (Option α)) : Nat := (l.filterMap id).length

/-- All rows inserted by one `create_entry` call, in insertion order
(main row first, then PRBs, HIIMs, issues). -/
def createdRows (e : EntryData) (now : Nat) (startId : Nat) : List Row :=
  let mainRow := mainRowOf e now startId
  let n1 := startId + 1 + countSome e.prbs
  let n2 := n1 + countSome e.hiims
  let prbRows := childRows (mkPrbRow e now) e.prbs 0 (startId + 1)
  let hiimRows := childRows (mkHiimRow e now) e.hiims 0 n1
  let issueRows := childRows (mkIssueRow e now) e.issues 0 n2
  mainRow :: (prbRows ++ hiimRows ++ issueRows)

/-- `create_entry`.  The whole call runs on one connection with a single
`conn.commit()` at the end; any exception triggers `conn.rollback()`.  The
failure oracle `failAt` says which `_insert_row` raises (if any): on
failure the committed store is unchanged and the caller sees the exception
(modelled as `none`).  On success the result is the id of the main row. -/
def create_entry (s : Store) (e : EntryData) (now : Nat) (failAt : Option Nat) :
    Store × Option Nat :=
  let rows := createdRows e now s.nextId
  match failAt with
  | some k =>
      if k < rows.length then (s, none)
      else ({ rows := s.rows ++ rows, nextId := s.nextId + rows.length }, some s.nextId)
  | none => ({ rows := s.rows ++ rows, nextId := s.nextId + rows.length }, some s.nextId)

/-- The SQL `ORDER BY date DESC, grouping_key, row_position` used by the
grouped and row-level read paths. -/
def rowOrder (x y : Row) : Prop :=
  y.date < x.date ∨
    (x.date = y.date ∧
      (x.groupingKey < y.groupingKey ∨
        (x.groupingKey = y.groupingKey ∧ x.rowPosition ≤ y.rowPosition)))

instance : DecidableRel rowOrder := fun x y => by unfold rowOrder; infer_instance

instance : IsTotal Row rowOrder := by
  constructor
  intro x y
  unfold rowOrder
  rcases lt_trichotomy x.date y.date with h | h | h
  · exact Or.inr (Or.inl h)
  · rcases lt_trichotomy x.groupingKey y.groupingKey with h2 | h2 | h2
    · exact Or.inl (Or.inr ⟨h, Or.inl h2⟩)
    · rcases le_total x.rowPosition y.rowPosition with h3 | h3
      · exact Or.inl (Or.inr ⟨h, Or.inr ⟨h2, h3⟩⟩)
      · exact Or.inr (Or.inr ⟨h.symm, Or.inr ⟨h2.symm, h3⟩⟩)
    · exact Or.inr (Or.inr ⟨h.symm, Or.inl h2⟩)
  · exact Or.inl (Or.inl h)

instance : IsTrans Row rowOrder := by
  constructor
  intro x y z h1 h2
  unfold rowOrder at *
  rcases h1 with h1 | ⟨hd1, h1⟩
  · rcases h2 with h2 | ⟨hd2, _⟩
    · exact Or.inl (h2.trans h1)
    · exact Or.inl (hd2 ▸ h1)
  · rcases h2 with h2 | ⟨hd2, h2⟩
    · exact Or.inl (hd1 ▸ h2)
    · refine Or.inr ⟨hd1.trans hd2, ?_⟩
      rcases h1 with h1 | ⟨hg1, h1⟩
      · rcases h2 with h2 | ⟨hg2, _⟩
        · exact Or.inl (h1.trans h2)
        · exact Or.inl (hg2 ▸ h1)
      · rcases h2 with h2 | ⟨hg2, h2⟩
        · exact Or.inl (hg1 ▸ h2)
        · exact Or.inr ⟨hg1.trans hg2, h1.trans h2⟩

/-- The sorted row sequence a query with
`ORDER BY date DESC, grouping_key, row_position` returns. -/
def sortRows (l : List Row) : List Row := l.insertionSort rowOrder

/-- The `{'description': ..., 'time_loss': ..., 'row_position': ...}` dicts
the grouping engine emits for issue rows. -/
structure IssueView where
  description : Option String
  timeLoss : Option String
  rowPosition : Nat
deriving DecidableEq

structure PrbView where
  prbIdNumber : Option String
  prbIdStatus : Option String
  prbLink : Option String
deriving DecidableEq

structure HiimView where
  hiimIdNumber : Option String
  hiimIdStatus : Option String
  hiimLink : Option String
deriving DecidableEq

def issueViewOf (r : Row) : IssueView := ⟨r.issueDescription, r.timeLoss, r.rowPosition⟩

/-- The accumulator value of `grouped_entries[grouping_key]` in
`get_entries_by_application`. -/
structure GroupAcc where
  main : Option Row
  prbs : List Row
  hiims : List Row
  issues : List IssueView
deriving DecidableEq

def emptyAcc : GroupAcc := ⟨none, [], [], []⟩

/-- One iteration of the row-dispatch loop of `get_entries_by_application`. -/
def updateAcc (g : GroupAcc) (r : Row) : GroupAcc :=
  match r.rowType with
  | .main => { g with main := some r }
  | .prb => { g with prbs := g.prbs ++ [r] }
  | .hiim => { g with hiims := g.hiims ++ [r] }
  | .issue => { g with issues := g.issues ++ [issueViewOf r] }

/-- Dispatch one row into the insertion-ordered dict of partitions. -/
def insertGrouped : List (String × GroupAcc) → Row → List (String × GroupAcc)
  | [], r => [(r.groupingKey, updateAcc emptyAcc r)]
  | (k, g) :: rest, r =>
      if k = r.groupingKey then (k, updateAcc g r) :: rest
      else (k, g) :: insertGrouped rest r

/-- `grouped_entries`: partition rows by `grouping_key`, preserving
first-seen key order (Python dicts are insertion-ordered). -/
def groupRows (rows : List Row) : List (String × GroupAcc) := rows.foldl insertGrouped []

/-- Python truthiness test `not row.get(field)` for a nullable text field:
true when the value is SQL NULL or the empty string. -/
def strFalsy (v : Option String) : Bool :=
  match v with
  | none => true
  | some s => s == ""

/-- `IS NOT NULL AND != ''` / Python truthiness of a text field. -/
def strTruthy (v : Option String) : Bool := !strFalsy v

/-- Base record of a pseudo-entry emitted by the orphaned-children branch:
either a real `prb`/`hiim` row, or the partial dict synthesized for an
orphan issue (whose `application_name`/`date`/timestamps are only present
when copied from the first available sibling row). -/
inductive OrphanBase where
  | fromRow (r : Row)
  | issueStub (groupingKey : String) (issueDescription : Option String)
      (timeLoss : Option String) (rowPosition : Nat)
      (applicationName : Option String) (date : Option String)
      (createdAt : Option Nat) (updatedAt : Option Nat)
deriving DecidableEq

/-- An enriched pseudo-entry from the no-`main`-row branch of
`get_entries_by_application`: the base dict plus the sibling-enriched
PRB/HIIM/issue/time-loss fields and the attached arrays. -/
structure OrphanView where
  base : OrphanBase
  prbIdNumber : Option String
  prbIdStatus : Option String
  prbLink : Option String
  hiimIdNumber : Option String
  hiimIdStatus : Option String
  hiimLink : Option String
  issueDescription : Option String
  timeLoss : Option String
  prbs : List Row
  hiims : List Row
  issues : List IssueView
deriving DecidableEq

def orphanBasePrb (b : OrphanBase) : Option String × Option String × Option String :=
  match b with
  | .fromRow r => (r.prbIdNumber, r.prbIdStatus, r.prbLink)
  | .issueStub .. => (none, none, none)

def orphanBaseHiim (b : OrphanBase) : Option String × Option String × Option String :=
  match b with
  | .fromRow r => (r.hiimIdNumber, r.hiimIdStatus, r.hiimLink)
  | .issueStub .. => (none, none, none)

def orphanBaseIssueDesc (b : OrphanBase) : Option String :=
  match b with
  | .fromRow r => r.issueDescription
  | .issueStub _ d .. => d

def orphanBaseTimeLoss (b : OrphanBase) : Option String :=
  match b with
  | .fromRow r => r.timeLoss
  | .issueStub _ _ t .. => t

/-- The enrichment loop body of the orphaned-children branch. -/
def orphanViewOf (g : GroupAcc) (b : OrphanBase) : OrphanView :=
  let (pn, ps, pl) := orphanBasePrb b
  let (hn, hs, hl) := orphanBaseHiim b
  let (pn', ps', pl') :=
    if strFalsy pn ∧ g.prbs ≠ [] then
      match g.prbs with
      | p :: _ => (p.prbIdNumber, p.prbIdStatus, p.prbLink)
      | [] => (pn, ps, pl)
    else (pn, ps, pl)
  let (hn', hs', hl') :=
    if strFalsy hn ∧ g.hiims ≠ [] then
      match g.hiims with
      | h :: _ => (h.hiimIdNumber, h.hiimIdStatus, h.hiimLink)
      | [] => (hn, hs, hl)
    else (hn, hs, hl)
  let d0 := orphanBaseIssueDesc b
  let d' :=
    if strFalsy d0 ∧ g.issues ≠ [] then
      match g.issues with
      | i :: _ => i.description
      | [] => d0
    else d0
  let t0 := orphanBaseTimeLoss b
  let t' :=
    if strFalsy t0 ∧ g.issues ≠ [] then
      match g.issues.find? (fun i =>
        strTruthy i.timeLoss && !(pyStrip (i.timeLoss.getD "") == "")) with
      | some i => i.timeLoss
      | none => t0
    else t0
  ⟨b, pn', ps', pl', hn', hs', hl', d', t', g.prbs, g.hiims, g.issues⟩

/-- One element of the list `get_entries_by_application` returns: either a
grouped logical entry (the `main` row plus its position-ordered child
arrays) or an enriched orphan pseudo-entry. -/
inductive ListedEntry where
  | entry (main : Row) (prbs : List Row) (hiims : List Row) (issues : List IssueView)
  | orphan (o : OrphanView)
deriving DecidableEq

/-- Conversion of one partition to output entries (`main` present: one
grouped entry; absent: one enriched pseudo-entry per child row, the
orphan issues coming after the `prb`/`hiim` rows as in the code). -/
def listedOf (gk : String) (g : GroupAcc) : List ListedEntry :=
  match g.main with
  | some m => [.entry m g.prbs g.hiims g.issues]
  | none =>
      let indiv := g.prbs ++ g.hiims
      let bases := indiv.map OrphanBase.fromRow
      let stubs := g.issues.map (fun iv =>
        OrphanBase.issueStub gk iv.description iv.timeLoss iv.rowPosition
          ((indiv.head?).map (·.applicationName)) ((indiv.head?).map (·.date))
          ((indiv.head?).map (·.createdAt)) ((indiv.head?).map (·.updatedAt)))
      ((bases ++ stubs).map (orphanViewOf g)).map .orphan

/-- `date >= start_date`/`date <= end_date` filters (absent bound: no
constraint). -/
def inDateRange (startD endD : Option String) (r : Row) : Bool :=
  (match startD with | some sd => decide (sd ≤ r.date) | none => true) &&
  (match endD with | some ed => decide (r.date ≤ ed) | none => true)

/-- `get_entries_by_application`: select the application's rows (optionally
date-bounded), order them, group by `grouping_key` and convert each
partition. -/
def get_entries_by_application (s : Store) (app : String)
    (startD endD : Option String) : List ListedEntry :=
  let rows := sortRows (s.rows.filter
    (fun r => decide (r.applicationName = app) && inDateRange startD endD r))
  ((groupRows rows).map (fun p => listedOf p.1 p.2)).flatten

/-- The `ORDER BY row_position ASC, id ASC` used by `get_entry_by_id` for
the related-row query. -/
def relatedOrder (x y : Row) : Prop :=
  x.rowPosition < y.rowPosition ∨ (x.rowPosition = y.rowPosition ∧ x.id ≤ y.id)

instance : DecidableRel relatedOrder := fun x y => by unfold relatedOrder; infer_instance

def sortRelated (l : List Row) : List Row := l.insertionSort relatedOrder

/-- PRB dict in a `get_entry_by_id` result array. -/
structure PrbViewB where
  id : Nat
  prbIdNumber : Option String
  prbIdStatus : Option String
  prbLink : Option String
  rowPosition : Nat
  createdAt : Nat
deriving DecidableEq

structure HiimViewB where
  id : Nat
  hiimIdNumber : Option String
  hiimIdStatus : Option String
  hiimLink : Option String
  rowPosition : Nat
  createdAt : Nat
deriving DecidableEq

structure IssueViewB where
  id : Nat
  description : Option String
  timeLoss : Option String
  rowPosition : Nat
  createdAt : Nat
deriving DecidableEq

/-- A `get_entry_by_id` result: the target row with the three
position-aligned, null-padded arrays attached. -/
structure ByIdEntry where
  row : Row
  prbs : List (Option PrbViewB)
  hiims : List (Option HiimViewB)
  issues : List (Option IssueViewB)
deriving DecidableEq

/-- State of the related-row loop in `get_entry_by_id`: running
`max_position` and the three position-keyed dicts (later rows at the same
position overwrite earlier ones, as in the Python dicts). -/
def byIdStep (entryId : Nat)
    (acc : Nat × (Nat → Option PrbViewB) × (Nat → Option HiimViewB) × (Nat → Option IssueViewB))
    (r : Row) :
    Nat × (Nat → Option PrbViewB) × (Nat → Option HiimViewB) × (Nat → Option IssueViewB) :=
  if r.id = entryId then acc
  else
    let (mp, pd, hd, idd) := acc
    let pos := r.rowPosition
    let mp' := max mp pos
    match r.rowType with
    | .prb =>
        (mp', fun p => if p = pos then
            some ⟨r.id, r.prbIdNumber, r.prbIdStatus, r.prbLink, pos, r.createdAt⟩
          else pd p, hd, idd)
    | .hiim =>
        (mp', pd, fun p => if p = pos then
            some ⟨r.id, r.hiimIdNumber, r.hiimIdStatus, r.hiimLink, pos, r.createdAt⟩
          else hd p, idd)
    | .issue =>
        (mp', pd, hd, fun p => if p = pos then
            some ⟨r.id, r.issueDescription, r.timeLoss, pos, r.createdAt⟩
          else idd p)
    | .main => (mp', pd, hd, idd)

/-- The `grouping_key or re-derive` step of `get_entry_by_id`. -/
def byIdGk (target : Row) : String :=
  if target.groupingKey ≠ "" then target.groupingKey
  else target.date ++ "_" ++ target.applicationName

/-- The three position-aligned arrays `get_entry_by_id` builds for a
`main` target: every position in `0..max_position` is filled from the
position-keyed dicts, `null` when no row of that kind occupies it. -/
def byIdArrays (s : Store) (target : Row) (entryId : Nat) :
    List (Option PrbViewB) × List (Option HiimViewB) × List (Option IssueViewB) :=
  match (sortRelated (s.rows.filter (fun r =>
      r.groupingKey == byIdGk target ||
        (r.date == target.date && r.applicationName == target.applicationName)))).foldl
      (byIdStep entryId) (0, fun _ => none, fun _ => none, fun _ => none) with
  | (mp, pd, hd, idd) =>
      ((List.range (mp + 1)).map pd, (List.range (mp + 1)).map hd,
        (List.range (mp + 1)).map idd)

/-- `get_entry_by_id`: for a `main` row, rebuild the three child arrays
with null placeholders for every position in `0..max_position`; for a
non-`main` row, return it with empty arrays. -/
def get_entry_by_id (s : Store) (entryId : Nat) : Option ByIdEntry :=
  match s.rows.find? (fun r => r.id == entryId) with
  | none => none
  | some target =>
      if target.rowType = .main then
        some ⟨target, (byIdArrays s target entryId).1,
          (byIdArrays s target entryId).2.1, (byIdArrays s target entryId).2.2⟩
      else
        some ⟨target, [], [], []⟩

/-- `delete_entry`: look up the row's `grouping_key`, then delete every row
sharing it; report whether any row was deleted. -/
def delete_entry (s : Store) (entryId : Nat) : Store × Bool :=
  match s.rows.find? (fun r => r.id == entryId) with
  | none => (s, false)
  | some r =>
      let gk := r.groupingKey
      let deletedCount := (s.rows.filter (fun x => x.groupingKey == gk)).length
      ({ s with rows := s.rows.filter (fun x => !(x.groupingKey == gk)) },
        decide (0 < deletedCount))

/-- The `row_type_filter` argument of
`get_individual_rows_by_application`. -/
inductive RowFilter where
  | prb | hiim | issue | timeLoss
deriving DecidableEq

/-- `time_loss IS NOT NULL AND TRIM(time_loss) != '' AND
TRIM(UPPER(time_loss)) NOT IN ('N/A', 'NA', 'NONE', 'NULL')`. -/
def meaningfulTimeLoss (v : Option String) : Bool :=
  match v with
  | none => false
  | some s =>
      !(sqlTrim s == "") &&
        !(decide (sqlTrim (sqlUpper s) ∈ ["N/A", "NA", "NONE", "NULL"]))

/-- The row-qualification predicate of the `WHERE` clause built by
`get_individual_rows_by_application` for each `row_type_filter` value.
For `time_loss`, the `NOT EXISTS` subquery ranges over the whole
`entries` table of the store. -/
def rowFilterPred (s : Store) (f : RowFilter) (r : Row) : Bool :=
  match f with
  | .prb => r.rowType == .prb || (r.rowType == .main && strTruthy r.prbIdNumber)
  | .hiim => r.rowType == .hiim || (r.rowType == .main && strTruthy r.hiimIdNumber)
  | .issue => r.rowType == .issue || (r.rowType == .main && strTruthy r.issueDescription)
  | .timeLoss =>
      (r.rowType == .issue && meaningfulTimeLoss r.timeLoss) ||
      (r.rowType == .main && meaningfulTimeLoss r.timeLoss &&
        !(s.rows.any (fun e2 =>
          e2.groupingKey == r.groupingKey && e2.rowType == .issue &&
            meaningfulTimeLoss e2.timeLoss)))

/-- A formatted individual row: the row plus the frontend-compatibility
arrays. -/
structure FormattedRow where
  base : Row
  prbs : List PrbView
  hiims : List HiimView
  issues : List IssueView
deriving DecidableEq

/-- The per-row formatting block of `get_individual_rows_by_application`. -/
def formatIndividual (r : Row) : FormattedRow :=
  match r.rowType with
  | .prb => ⟨r, [⟨r.prbIdNumber, r.prbIdStatus, r.prbLink⟩], [], []⟩
  | .hiim => ⟨r, [], [⟨r.hiimIdNumber, r.hiimIdStatus, r.hiimLink⟩], []⟩
  | .issue => ⟨r, [], [], [⟨r.issueDescription, r.timeLoss, r.rowPosition⟩]⟩
  | .main =>
      ⟨r,
        if strTruthy r.prbIdNumber then [⟨r.prbIdNumber, r.prbIdStatus, r.prbLink⟩] else [],
        if strTruthy r.hiimIdNumber then [⟨r.hiimIdNumber, r.hiimIdStatus, r.hiimLink⟩] else [],
        if strTruthy r.issueDescription then [⟨r.issueDescription, r.timeLoss, r.rowPosition⟩] else []⟩

/-- `get_individual_rows_by_application`: the ungrouped row-level filter
path. -/
def get_individual_rows_by_application (s : Store) (app : String)
    (startD endD : Option String) (f : Option RowFilter) : List FormattedRow :=
  let pred := fun r =>
    decide (r.applicationName = app) && inDateRange startD endD r &&
      (match f with | some ff => rowFilterPred s ff r | none => true)
  (sortRows (s.rows.filter pred)).map formatIndividual

/-- One element of a `prbs`/`hiims`/`issues` array in an update payload.
`description` and `time_loss` are read with defaults
(`item_data.get('description', item_data.get('issue_description'))`,
`item_data.get('time_loss', '')`), so for them an absent key and a JSON
null are distinguished by `Option (Option String)` (`none` = key absent,
`some none` = null, `some (some s)` = string). -/
structure ItemPatch where
  id : Option Nat
  prbIdNumber : Option String
  prbIdStatus : Option String
  prbLink : Option String
  hiimIdNumber : Option String
  hiimIdStatus : Option String
  hiimLink : Option String
  description : Option (Option String)
  issueDescription : Option String
  timeLoss : Option (Option String)
deriving DecidableEq

/-- `item_data.get('description', item_data.get('issue_description'))`. -/
def descValue (it : ItemPatch) : Option String :=
  match it.description with
  | some v => v
  | none => it.issueDescription

/-- `value is not None and str(value).strip()` — the guard deciding whether
a non-`time_loss` field of `_update_existing_related_row` is written. -/
def meaningfulVal (v : Option String) : Bool :=
  match v with
  | some s => !(pyStrip s == "")
  | none => false

/-- `item_data.get('time_loss', '')` (absent key yields `''`, a JSON null
yields Python `None`). -/
def tlValue (jv : Option (Option String)) : Option String :=
  match jv with
  | none => some ""
  | some none => none
  | some (some s) => some s

/-- The `time_loss` branch of `_update_existing_related_row`: a value with
non-blank strip is stored stripped; an exactly-empty string clears the
field; anything else (null, whitespace-only) leaves it unchanged.  Returns
the new stored value and whether an update was emitted. -/
def tlResult (old : Option String) (jv : Option (Option String)) :
    Option String × Bool :=
  match tlValue jv with
  | some s =>
      if !(pyStrip s == "") then (some (pyStrip s), true)
      else if s == "" then (some "", true)
      else (old, false)
  | none => (old, false)

/-- Field patch rule for the non-`time_loss` fields: write the (untrimmed)
value only when it is non-null with non-blank strip. -/
def applyVal (old : Option String) (v : Option String) : Option String :=
  if meaningfulVal v then v else old

/-- Whether `_update_existing_related_row` builds a non-empty
`update_fields` list for this kind and item (decided by the item alone). -/
def patchDidAny (k : RowType) (it : ItemPatch) : Bool :=
  match k with
  | .prb => meaningfulVal it.prbIdNumber || meaningfulVal it.prbIdStatus ||
      meaningfulVal it.prbLink
  | .hiim => meaningfulVal it.hiimIdNumber || meaningfulVal it.hiimIdStatus ||
      meaningfulVal it.hiimLink
  | .issue => meaningfulVal (descValue it) || (tlResult none it.timeLoss).2
  | .main => false

/-- The field assignments of `_update_existing_related_row` applied to a
row (only called when at least one field qualifies; also stamps
`updated_at`). -/
def applyItemPatch (k : RowType) (it : ItemPatch) (now : Nat) (r : Row) : Row :=
  match k with
  | .prb =>
      { r with prbIdNumber := applyVal r.prbIdNumber it.prbIdNumber
               prbIdStatus := applyVal r.prbIdStatus it.prbIdStatus
               prbLink := applyVal r.prbLink it.prbLink
               updatedAt := now }
  | .hiim =>
      { r with hiimIdNumber := applyVal r.hiimIdNumber it.hiimIdNumber
               hiimIdStatus := applyVal r.hiimIdStatus it.hiimIdStatus
               hiimLink := applyVal r.hiimLink it.hiimLink
               updatedAt := now }
  | .issue =>
      { r with issueDescription := applyVal r.issueDescription (descValue it)
               timeLoss := (tlResult r.timeLoss it.timeLoss).1
               updatedAt := now }
  | .main => r

/-- `_update_existing_related_row`: an in-place `UPDATE ... WHERE id = ?`
(a no-op when no field qualifies, or when no row has that id). -/
def update_existing_related_row (s : Store) (rowId : Nat) (it : ItemPatch)
    (k : RowType) (now : Nat) : Store :=
  if patchDidAny k it then
    { s with rows := s.rows.map (fun r =>
        if r.id = rowId then applyItemPatch k it now r else r) }
  else s

/-- `UPDATE entries SET row_position = ? WHERE id = ?` (note: this query
does not touch `updated_at`). -/
def setRowPosition (s : Store) (rowId pos : Nat) : Store :=
  { s with rows := s.rows.map (fun r =>
      if r.id = rowId then { r with rowPosition := pos } else r) }

/-- `_create_new_related_row`: copy identity and common fields from the
partition's `main` row, set the kind-specific fields verbatim from the
item, and insert at the requested position.  Raises when no `main` row
exists for the grouping key.  Columns not mentioned in `new_row_data`
(`timings_status`, `business_chain`, `infra_weekend_manual`, and the other
kinds' fields) are left SQL `NULL`. -/
def create_new_related_row (s : Store) (gk : String) (it : ItemPatch)
    (k : RowType) (pos : Nat) (now : Nat) : Except String Store :=
  match s.rows.find? (fun r => r.groupingKey == gk && r.rowType == RowType.main) with
  | none => .error ("No main entry found for grouping_key: " ++ gk)
  | some m =>
      let base : Row :=
        { id := s.nextId
          date := m.date
          day := m.day
          applicationName := m.applicationName
          rowType := k
          groupingKey := gk
          rowPosition := pos
          common := m.common
          timingsStatus := none
          businessChain := none
          infraWeekendManual := none
          prbIdNumber := none
          prbIdStatus := none
          prbLink := none
          hiimIdNumber := none
          hiimIdStatus := none
          hiimLink := none
          issueDescription := none
          timeLoss := none
          createdAt := now
          updatedAt := now }
      let newRow :=
        match k with
        | .prb => { base with prbIdNumber := it.prbIdNumber
                              prbIdStatus := it.prbIdStatus
                              prbLink := it.prbLink }
        | .hiim => { base with hiimIdNumber := it.hiimIdNumber
                               hiimIdStatus := it.hiimIdStatus
                               hiimLink := it.hiimLink }
        | .issue => { base with
            issueDescription := descValue it
            timeLoss := some (pyStrip (match it.timeLoss with
              | some (some s) => s
              | _ => "")) }
        | .main => base
      .ok { rows := s.rows ++ [newRow], nextId := s.nextId + 1 }

/-- Predicate for "row of this grouping key and kind". -/
def gkRowsPred (gk : String) (k : RowType) (r : Row) : Bool :=
  r.groupingKey == gk && r.rowType == k

/-- The slot loop of `_update_related_rows`: a `None` slot deletes any row
of this kind at that position; an item carrying an id from `existing_ids`
is patched in place and forced to the slot's position; any other item
creates a new row at the slot's position. -/
def urrGo (gk : String) (k : RowType) (now : Nat) (existingIds : List Nat) :
    Store → List Nat → List (Option ItemPatch) → Nat →
      Except String (Store × List Nat)
  | s, upd, [], _ => .ok (s, upd)
  | s, upd, none :: rest, i =>
      urrGo gk k now existingIds
        { s with rows := s.rows.filter (fun r =>
            !(gkRowsPred gk k r && r.rowPosition == i)) }
        upd rest (i + 1)
  | s, upd, some it :: rest, i =>
      match it.id with
      | some rid =>
          if rid ∈ existingIds then
            let s1 := update_existing_related_row s rid it k now
            let s2 := setRowPosition s1 rid i
            urrGo gk k now existingIds s2 (upd ++ [rid]) rest (i + 1)
          else
            match create_new_related_row s gk it k i now with
            | .error e => .error e
            | .ok s' => urrGo gk k now existingIds s' (upd ++ [s.nextId]) rest (i + 1)
      | none =>
          match create_new_related_row s gk it k i now with
          | .error e => .error e
          | .ok s' => urrGo gk k now existingIds s' (upd ++ [s.nextId]) rest (i + 1)

/-- `_update_related_rows`: apply the desired child list for one kind, then
delete every pre-existing row of that kind whose id was not kept. -/
def update_related_rows (s : Store) (gk : String) (k : RowType)
    (newData : List (Option ItemPatch)) (now : Nat) : Except String Store :=
  match urrGo gk k now ((s.rows.filter (gkRowsPred gk k)).map (fun r => r.id))
      s [] newData 0 with
  | .error e => .error e
  | .ok (s', upd) =>
      .ok { s' with rows := s'.rows.filter (fun r =>
        !(decide (r.id ∈ (s.rows.filter (gkRowsPred gk k)).map (fun r => r.id)) &&
          !(decide (r.id ∈ upd)))) }

/-- One `field: value` pair of the update payload applied verbatim to the
target row by the `UPDATE entries SET ...` of
`_update_main_entry_comprehensive` / `_update_single_row` (the request
layer passes the JSON dict through unchanged, so any column a caller
names is written as given). -/
inductive MainField where
  | date (v : String)
  | day (v : String)
  | applicationName (v : String)
  | groupingKey (v : String)
  | commonField (i : CommonIdx) (v : String)
  | timingsStatus (v : Option String)
  | businessChain (v : Option String)
  | infraWeekendManual (v : Option Int)
  | prbIdNumber (v : Option String)
  | prbIdStatus (v : Option String)
  | prbLink (v : Option String)
  | hiimIdNumber (v : Option String)
  | hiimIdStatus (v : Option String)
  | hiimLink (v : Option String)
  | issueDescription (v : Option String)
  | timeLoss (v : Option String)
deriving DecidableEq

def applyMainField (r : Row) : MainField → Row
  | .date v => { r with date := v }
  | .day v => { r with day := v }
  | .applicationName v => { r with applicationName := v }
  | .groupingKey v => { r with groupingKey := v }
  | .commonField i v => { r with common := Function.update r.common i v }
  | .timingsStatus v => { r with timingsStatus := v }
  | .businessChain v => { r with businessChain := v }
  | .infraWeekendManual v => { r with infraWeekendManual := v }
  | .prbIdNumber v => { r with prbIdNumber := v }
  | .prbIdStatus v => { r with prbIdStatus := v }
  | .prbLink v => { r with prbLink := v }
  | .hiimIdNumber v => { r with hiimIdNumber := v }
  | .hiimIdStatus v => { r with hiimIdStatus := v }
  | .hiimLink v => { r with hiimLink := v }
  | .issueDescription v => { r with issueDescription := v }
  | .timeLoss v => { r with timeLoss := v }

/-- Apply a list of field assignments plus the trailing
`updated_at = ?`. -/
def applyMainFields (r : Row) (fs : List MainField) (now : Nat) : Row :=
  { fs.foldl applyMainField r with updatedAt := now }

/-- The `entry_data` dict of an update call: the scalar field assignments
(everything except `id`, `prbs`, `hiims`, `issues`) plus the three child
arrays.  `none` for an array means the key is absent
(`entry_data.get('prbs', [])` then yields `[]`). -/
structure UpdateData where
  fields : List MainField
  prbs : Option (List (Option ItemPatch))
  hiims : Option (List (Option ItemPatch))
  issues : Option (List (Option ItemPatch))

/-- The `grouping_key = current_entry['grouping_key'] or re-derive` step of
`_update_main_entry_comprehensive` (re-derivation only when the stored key
is falsy, and from the *pre-update* date). -/
def umcGk (current : Row) : String :=
  if current.groupingKey ≠ "" then current.groupingKey
  else current.date ++ "_" ++ current.applicationName

/-- The scalar phase of `_update_main_entry_comprehensive`: apply every
supplied field plus `updated_at` to the target row (skipped entirely when
no scalar field is supplied — then even `updated_at` stays). -/
def umcScalar (s : Store) (entryId : Nat) (fs : List MainField) (now : Nat) : Store :=
  if fs ≠ [] then
    { s with rows := s.rows.map (fun r =>
        if r.id = entryId then applyMainFields r fs now else r) }
  else s

/-- `_update_main_entry_comprehensive`: update the main row's scalar
fields, then run the child upsert for the three kinds in order on the same
connection; one commit at the end, any exception rolls everything back
(modelled by the caller keeping the original store on `.error`). -/
def update_main_entry_comprehensive (s : Store) (entryId : Nat)
    (d : UpdateData) (current : Row) (now : Nat) : Except String Store :=
  match update_related_rows (umcScalar s entryId d.fields now) (umcGk current) .prb
      (d.prbs.getD []) now with
  | .error e => .error e
  | .ok s2 =>
      match update_related_rows s2 (umcGk current) .hiim (d.hiims.getD []) now with
      | .error e => .error e
      | .ok s3 =>
          match update_related_rows s3 (umcGk current) .issue (d.issues.getD []) now with
          | .error e => .error e
          | .ok s4 => .ok s4

/-- `_update_single_row` (non-`main` target): apply every supplied field
plus `updated_at` to the single row and return it.  A payload that still
carries a child-array key cannot be bound as a SQL parameter, so the
statement raises and `update_entry` rolls back (modelled as failure). -/
def update_single_row (s : Store) (entryId : Nat) (d : UpdateData)
    (now : Nat) : Store × Option Row :=
  if d.prbs.isSome || d.hiims.isSome || d.issues.isSome then (s, none)
  else
    let s' := { s with rows := s.rows.map (fun r =>
      if r.id = entryId then { (d.fields.foldl applyMainField r) with updatedAt := now }
      else r) }
    (s', s'.rows.find? (fun r => r.id == entryId))

/-- Result of `update_entry`: the comprehensive path re-reads the entry
through `get_entry_by_id`; the single-row path returns the updated row;
any exception yields Python `None`. -/
inductive UpdateResult where
  | comprehensive (e : Option ByIdEntry)
  | singleRow (r : Option Row)
  | failed
deriving DecidableEq

/-- `update_entry`: dispatch on the target row's kind; on any exception the
transaction is rolled back and `None` is returned (store unchanged). -/
def update_entry (s : Store) (entryId : Nat) (d : UpdateData) (now : Nat) :
    Store × UpdateResult :=
  match s.rows.find? (fun r => r.id == entryId) with
  | none => (s, .failed)
  | some current =>
      if current.rowType = .main then
        match update_main_entry_comprehensive s entryId d current now with
        | .ok s' => (s', .comprehensive (get_entry_by_id s' entryId))
        | .error _ => (s, .failed)
      else
        match update_single_row s entryId d now with
        | (s', some r) => (s', .singleRow (some r))
        | (_, none) => (s, .failed)

/-- Store well-formedness: ids are below the `AUTOINCREMENT` counter and
unique.  Any store produced by the adapter (which never writes `id`
explicitly) satisfies this. -/
def StoreWF (s : Store) : Prop :=
  (∀ r ∈ s.rows, r.id < s.nextId) ∧ (s.rows.map (fun r => r.id)).Nodup

/-- Spec invariant I3, row-level form: two live rows of the same grouping
key and kind never share a position. -/
def rowsNoPosCollision (rows : List Row) : Prop :=
  rows.Pairwise (fun a b => a.groupingKey = b.groupingKey → a.rowType = b.rowType →
    a.rowPosition ≠ b.rowPosition)

instance (s : Store) : Decidable (StoreWF s) := by
  unfold StoreWF; infer_instance

instance (rows : List Row) : Decidable (rowsNoPosCollision rows) := by
  unfold rowsNoPosCollision; infer_instance

/-- The per-row effect of the "update existing row, then force its
position" pair of statements in `_update_related_rows`. -/
def patchAtPos (k : RowType) (it : ItemPatch) (now i : Nat) (r : Row) : Row :=
  { (if patchDidAny k it then applyItemPatch k it now r else r) with rowPosition := i }

/-- Invariant carried through the slot loop of `_update_related_rows`:
the store stays well-formed, the tracked id lists stay below the id
counter, rows whose id is in `existingIds` are rows of the targeted
`(grouping_key, row_type)`, every such row already repositioned (id in
`upd`) sits strictly below the next slot index, repositioned rows have
pairwise-distinct positions, and any targeted row not yet repositioned is
one of the pre-existing ones. -/
def urrInv (gk : String) (k : RowType) (existingIds upd : List Nat) (i : Nat)
    (s : Store) : Prop :=
  StoreWF s ∧
  (∀ j ∈ existingIds, j < s.nextId) ∧
  (∀ j ∈ upd, j < s.nextId) ∧
  (∀ r ∈ s.rows, r.id ∈ existingIds → gkRowsPred gk k r = true) ∧
  (∀ r ∈ s.rows, gkRowsPred gk k r = true → r.rowPosition < i ∨ r.id ∉ upd) ∧
  s.rows.Pairwise (fun a b => gkRowsPred gk k a = true → gkRowsPred gk k b = true →
    a.id ∈ upd → b.id ∈ upd → a.rowPosition ≠ b.rowPosition) ∧
  (∀ r ∈ s.rows, gkRowsPred gk k r = true → r.id ∈ upd ∨ r.id ∈ existingIds)

/-! ## Concrete fixtures used by witnesses and counterexamples -/

/-- A minimal `entry_data` payload (all optional scalar keys at their
`''` defaults). -/
def baseED : EntryData :=
  { date := "2025-10-03", day := "Fri", applicationName := "CVAR ALL", groupingKey := none,
    common := fun _ => "", timingsStatus := "", businessChain := "", infraWeekendManual := none,
    prbIdNumberLegacy := "", prbIdStatusLegacy := "", prbLinkLegacy := "",
    hiimIdNumberLegacy := "", hiimIdStatusLegacy := "", hiimLinkLegacy := "",
    issueDescriptionLegacy := "", timeLossLegacy := "",
    prbs := [], hiims := [], issues := [] }

/-- The P2 payload: `prbs=[null, X]`, `hiims=[null, null]`,
`issues=[Y, Z]`. -/
def eC3 : EntryData := { baseED with
  prbs := [none, some ⟨some "101", "open", ""⟩],
  hiims := [none, none],
  issues := [some ⟨"net issue", "15 min"⟩, some ⟨"slow", ""⟩] }

def sC3 : Store := (create_entry emptyStore eC3 7 none).1

/-- The store as it stands when `create_entry eC3` is about to insert the
PRB row: only the main row exists. -/
def sC3mainOnly : Store := ⟨[mainRowOf eC3 7 1], 2⟩

/-- A payload with child lists of lengths `(1, 0, 0)`. -/
def eC2single : EntryData := { baseED with prbs := [some ⟨some "9", "st", "lk"⟩] }

def sC2single : Store := (create_entry emptyStore eC2single 3 none).1

/-- What `get_entry_by_id` returns for the main row of `sC2single`: the
PRB occupies position 0, and the HIIM/issue arrays are padded with a
`null` placeholder at position 0 rather than left empty. -/
def byIdC2out : ByIdEntry :=
  ⟨mainRowOf eC2single 3 1,
    [some ⟨2, some "9", some "st", some "lk", 0, 3⟩], [none], [none]⟩

/-- A store holding one freshly-created entry with no children. -/
def sNoChild : Store := (create_entry emptyStore baseED 3 none).1

/-- An update payload that changes only the `date` field. -/
def updDateOnly : UpdateData :=
  { fields := [.date "2025-10-04"], prbs := none, hiims := none, issues := none }

/-- An all-absent item patch. -/
def emptyPatch : ItemPatch :=
  { id := none, prbIdNumber := none, prbIdStatus := none, prbLink := none,
    hiimIdNumber := none, hiimIdStatus := none, hiimLink := none,
    description := none, issueDescription := none, timeLoss := none }

/-- A legacy-style main row whose stored `grouping_key` is empty (as left
behind by the pre-`grouping_key` schema the adapter migrates in
`init_database`). -/
def mainKeyless : Row := { mainRowOf baseED 1 1 with groupingKey := "" }

/-- A `prb` child row carrying the correct derived grouping key. -/
def prbChild : Row := mkPrbRow baseED 1 ⟨some "7", "", ""⟩ 0 2

/-- Store mixing the keyless main row with a correctly-keyed child. -/
def sC4 : Store := ⟨[mainKeyless, prbChild], 3⟩

def gkC4 : String := "2025-10-03_CVAR ALL"

/-- An update item adding a new HIIM (no id ⇒ insert path). -/
def hiimPatch : ItemPatch := { emptyPatch with hiimIdNumber := some "H1" }

/-- Update payload: clear the PRBs, add one HIIM. -/
def updC4 : UpdateData :=
  { fields := [], prbs := some [], hiims := some [some hiimPatch], issues := none }

/-- Entry with one PRB and one issue child. -/
def eC5 : EntryData := { baseED with
  prbs := [some ⟨some "7", "st", "lk"⟩], issues := [some ⟨"desc", "5 min"⟩] }

def sC5 : Store := (create_entry emptyStore eC5 4 none).1

/-- An update item supplying a PRB number but no link (insert path). -/
def prbPatch123 : ItemPatch := { emptyPatch with prbIdNumber := some "123" }

/-- Update payload adding that PRB item to an existing entry. -/
def updC8 : UpdateData :=
  { fields := [], prbs := some [some prbPatch123], hiims := none, issues := none }

/-- A create payload carrying a stale caller-supplied `grouping_key`. -/
def eStale : EntryData := { baseED with groupingKey := some "BOGUS_KEY" }

/-- A `main` row carrying `time_loss = "A"`. -/
def mainA : Row := { mainRowOf baseED 1 1 with timeLoss := some "A" }

/-- A sibling `issue` row carrying `time_loss = "B"`. -/
def issueB : Row := mkIssueRow baseED 1 ⟨"i", "B"⟩ 0 2

/-- Store with a main row and an issue row that both report time loss. -/
def sAB : Store := ⟨[mainA, issueB], 3⟩

/-- The smallest position not occupied by a live row of the given grouping
key and kind.  This formalizes the claimed (spec §7) insertion mechanism
"always assigning the next free position on insert"; it is written from
the spec's words, for comparison with what the code actually stores. -/
def specNextFreePosition (s : Store) (gk : String) (k : RowType) : Nat :=
  ((List.range (s.rows.length + 1)).find? (fun p =>
    !(s.rows.any (fun r => gkRowsPred gk k r && r.rowPosition == p)))).getD 0

/-! ## Shared lemmas -/

theorem applyItemPatch_id (k : RowType) (it : ItemPatch) (now : Nat) (r : Row) :
    (applyItemPatch k it now r).id = r.id := by
  cases k <;> rfl

theorem applyItemPatch_groupingKey (k : RowType) (it : ItemPatch) (now : Nat) (r : Row) :
    (applyItemPatch k it now r).groupingKey = r.groupingKey := by
  cases k <;> rfl

theorem applyItemPatch_rowType (k : RowType) (it : ItemPatch) (now : Nat) (r : Row) :
    (applyItemPatch k it now r).rowType = r.rowType := by
  cases k <;> rfl

theorem patchAtPos_id (k it now i r) : (patchAtPos k it now i r).id = r.id := by
  unfold patchAtPos; split <;> simp [applyItemPatch_id]

theorem patchAtPos_groupingKey (k it now i r) :
    (patchAtPos k it now i r).groupingKey = r.groupingKey := by
  unfold patchAtPos; split <;> simp [applyItemPatch_groupingKey]

theorem patchAtPos_rowType (k it now i r) :
    (patchAtPos k it now i r).rowType = r.rowType := by
  unfold patchAtPos; split <;> simp [applyItemPatch_rowType]

theorem patchAtPos_rowPosition (k it now i r) :
    (patchAtPos k it now i r).rowPosition = i := rfl

theorem patchAtPos_gkPred (gk : String) (k k' : RowType) (it now i r) :
    gkRowsPred gk k (patchAtPos k' it now i r) = gkRowsPred gk k r := by
  simp [gkRowsPred, patchAtPos_groupingKey, patchAtPos_rowType]

/-- `update_existing_related_row` followed by the position-forcing
`UPDATE` is a pointwise guarded map. -/
theorem patch_setPos_rows (s : Store) (rid : Nat) (it : ItemPatch) (k : RowType)
    (now i : Nat) :
    (setRowPosition (update_existing_related_row s rid it k now) rid i).rows =
      s.rows.map (fun r => if r.id = rid then patchAtPos k it now i r else r) := by
  unfold setRowPosition update_existing_related_row patchAtPos
  by_cases h : patchDidAny k it = true
  · simp only [h, if_true, List.map_map]
    refine List.map_congr_left (fun r _ => ?_)
    by_cases hr : r.id = rid
    · simp [Function.comp, hr, applyItemPatch_id]
    · simp [Function.comp, hr]
  · simp only [h, if_false]
    refine List.map_congr_left (fun r _ => ?_)
    by_cases hr : r.id = rid <;> simp [hr, h]

theorem setRowPosition_preserves (s : Store) (rid i : Nat) :
    (setRowPosition s rid i).nextId = s.nextId := rfl

theorem update_existing_nextId (s rid it k now) :
    (update_existing_related_row s rid it k now).nextId = s.nextId := by
  unfold update_existing_related_row; split <;> rfl

/-- Characterization of a successful `_create_new_related_row`: exactly
one row is appended; it carries the next id, the requested grouping key,
kind and position. -/
theorem create_new_related_row_ok {s : Store} {gk : String} {it : ItemPatch}
    {k : RowType} {i now : Nat} {s₂ : Store}
    (h : create_new_related_row s gk it k i now = .ok s₂) :
    ∃ nr : Row, s₂.rows = s.rows ++ [nr] ∧ s₂.nextId = s.nextId + 1 ∧
      nr.id = s.nextId ∧ nr.groupingKey = gk ∧ nr.rowType = k ∧ nr.rowPosition = i := by
  unfold create_new_related_row at h
  cases hf : s.rows.find? (fun r => r.groupingKey == gk && r.rowType == RowType.main) with
  | none => rw [hf] at h; exact absurd h (by simp)
  | some m =>
      rw [hf] at h
      simp only at h
      cases k <;> simp only [Except.ok.injEq] at h <;>
        exact ⟨_, by rw [← h], by rw [← h], rfl, rfl, rfl, rfl⟩

/-- `applyMainField` only changes `grouping_key` through an explicit
`groupingKey` assignment. -/
theorem applyMainField_groupingKey (r : Row) (f : MainField)
    (h : ∀ v, f ≠ .groupingKey v) :
    (applyMainField r f).groupingKey = r.groupingKey := by
  cases f <;> first
    | rfl
    | exact absurd rfl (h _)

theorem applyMainFields_groupingKey (r : Row) (fs : List MainField) (now : Nat)
    (h : ∀ v, MainField.groupingKey v ∉ fs) :
    (applyMainFields r fs now).groupingKey = r.groupingKey := by
  unfold applyMainFields
  simp only
  induction fs generalizing r with
  | nil => rfl
  | cons f fs ih =>
      have h1 : ∀ v, MainField.groupingKey v ∉ fs := fun v hv => h v (List.mem_cons_of_mem _ hv)
      have h0 : ∀ v, f ≠ .groupingKey v := by
        intro v hv
        exact h v (hv ▸ List.mem_cons_self _ _)
      simpa [List.foldl_cons, applyMainField_groupingKey r f h0] using ih (applyMainField r f) h1

theorem applyMainField_id (r : Row) (f : MainField) : (applyMainField r f).id = r.id := by
  cases f <;> rfl

theorem applyMainFields_id (r : Row) (fs : List MainField) (now : Nat) :
    (applyMainFields r fs now).id = r.id := by
  unfold applyMainFields
  simp only
  induction fs generalizing r with
  | nil => rfl
  | cons f fs ih => simpa [List.foldl_cons, applyMainField_id r f] using ih (applyMainField r f)

/-- Membership transfer for the child-row insertion loop. -/
theorem childRows_mem {α : Type} {mk : α → Nat → Nat → Row} {r : Row} :
    ∀ {items : List (Option α)} {pos rid : Nat},
      r ∈ childRows mk items pos rid → ∃ it p j, r = mk it p j := by
  intro items
  induction items with
  | nil => intro pos rid h; simp [childRows] at h
  | cons o rest ih =>
      intro pos rid h
      cases o with
      | none => exact ih h
      | some it =>
          rcases List.mem_cons.1 h with h | h
          · exact ⟨it, pos, rid, h⟩
          · exact ih h

theorem filter_not_gk_of_posDel (gk : String) (k : RowType) (i : Nat) (l : List Row) :
    (l.filter (fun r => !(gkRowsPred gk k r && r.rowPosition == i))).filter
        (fun r => !gkRowsPred gk k r) =
      l.filter (fun r => !gkRowsPred gk k r) := by
  rw [List.filter_filter]
  refine List.filter_congr fun r _ => ?_
  cases gkRowsPred gk k r <;> simp

theorem filter_not_gk_map_guard (gk : String) (k : RowType) (rid : Nat) (F : Row → Row)
    (hF : ∀ r, gkRowsPred gk k (F r) = gkRowsPred gk k r) (l : List Row)
    (hall : ∀ r ∈ l, r.id = rid → gkRowsPred gk k r = true) :
    (l.map (fun r => if r.id = rid then F r else r)).filter (fun r => !gkRowsPred gk k r) =
      l.filter (fun r => !gkRowsPred gk k r) := by
  induction l with
  | nil => rfl
  | cons a l ih =>
      have ih' := ih (fun r hr h => hall r (List.mem_cons_of_mem _ hr) h)
      by_cases ha : a.id = rid
      · have hgka : gkRowsPred gk k a = true := hall a (List.mem_cons_self _ _) ha
        simp [List.filter_cons, ha, hF, hgka, ih']
      · by_cases hg : gkRowsPred gk k a = true <;>
          simp [List.filter_cons, ha, hg, ih']

/-- Invariant step for a `None` slot (positional delete). -/
theorem urr_del_inv (gk : String) (k : RowType) (ex upd : List Nat) (i : Nat)
    (s : Store) (hinv : urrInv gk k ex upd i s) :
    urrInv gk k ex upd (i + 1)
        { s with rows := s.rows.filter (fun r => !(gkRowsPred gk k r && r.rowPosition == i)) } ∧
      ({ s with rows := s.rows.filter (fun r => !(gkRowsPred gk k r && r.rowPosition == i)) } :
          Store).rows.filter (fun r => !gkRowsPred gk k r) =
        s.rows.filter (fun r => !gkRowsPred gk k r) := by
  obtain ⟨⟨hwb, hnd⟩, hexb, hub, hex, hA, hB, hC⟩ := hinv
  have hsub : List.Sublist
      (s.rows.filter (fun r => !(gkRowsPred gk k r && r.rowPosition == i))) s.rows :=
    List.filter_sublist _
  refine ⟨⟨⟨fun r hr => hwb r (hsub.subset hr), hnd.sublist (hsub.map _)⟩,
    hexb, hub, fun r hr hm => hex r (hsub.subset hr) hm, ?_,
    hB.sublist hsub, fun r hr hg => hC r (hsub.subset hr) hg⟩,
    filter_not_gk_of_posDel gk k i s.rows⟩
  intro r hr hg
  rcases hA r (hsub.subset hr) hg with h | h
  · exact Or.inl (Nat.lt_succ_of_lt h)
  · exact Or.inr h

/-- Invariant step for the patch-in-place branch (existing id). -/
theorem urr_guard_inv (gk : String) (k : RowType) (ex upd : List Nat) (i : Nat)
    (s s₂ : Store) (rid : Nat) (it : ItemPatch) (now : Nat)
    (hmem : rid ∈ ex)
    (hrows : s₂.rows = s.rows.map (fun r => if r.id = rid then patchAtPos k it now i r else r))
    (hnid : s₂.nextId = s.nextId)
    (hinv : urrInv gk k ex upd i s) :
    urrInv gk k ex (upd ++ [rid]) (i + 1) s₂ ∧
      s₂.rows.filter (fun r => !gkRowsPred gk k r) =
        s.rows.filter (fun r => !gkRowsPred gk k r) := by
  obtain ⟨⟨hwb, hnd⟩, hexb, hub, hex, hA, hB, hC⟩ := hinv
  have hgid : ∀ r : Row,
      ((if r.id = rid then patchAtPos k it now i r else r) : Row).id = r.id := by
    intro r; by_cases hr : r.id = rid <;> simp [hr, patchAtPos_id]
  have hggk : ∀ r : Row,
      gkRowsPred gk k (if r.id = rid then patchAtPos k it now i r else r) =
        gkRowsPred gk k r := by
    intro r; by_cases hr : r.id = rid <;> simp [hr, patchAtPos_gkPred]
  have hmapid : s₂.rows.map (fun r => r.id) = s.rows.map (fun r => r.id) := by
    rw [hrows, List.map_map]
    exact List.map_congr_left (fun r _ => hgid r)
  refine ⟨⟨⟨?_, ?_⟩, ?_, ?_, ?_, ?_, ?_, ?_⟩, ?_⟩
  · intro r hr
    rw [hrows] at hr
    obtain ⟨r₀, hr₀, rfl⟩ := List.mem_map.1 hr
    rw [hgid, hnid]
    exact hwb r₀ hr₀
  · show (s₂.rows.map (fun r => r.id)).Nodup
    rw [hmapid]; exact hnd
  · intro j hj; rw [hnid]; exact hexb j hj
  · intro j hj
    rw [hnid]
    rcases List.mem_append.1 hj with hj | hj
    · exact hub j hj
    · simp only [List.mem_singleton] at hj
      subst hj; exact hexb j hmem
  · intro r hr hm
    rw [hrows] at hr
    obtain ⟨r₀, hr₀, rfl⟩ := List.mem_map.1 hr
    rw [hgid] at hm
    rw [hggk]
    exact hex r₀ hr₀ hm
  · intro r hr hg
    rw [hrows] at hr
    obtain ⟨r₀, hr₀, rfl⟩ := List.mem_map.1 hr
    by_cases hr₀id : r₀.id = rid
    · refine Or.inl ?_
      simp only [hr₀id, if_true]
      exact Nat.lt_succ_self i
    · simp only [hr₀id, if_false] at hg ⊢
      rcases hA r₀ hr₀ hg with h | h
      · exact Or.inl (Nat.lt_succ_of_lt h)
      · refine Or.inr fun hcon => ?_
        rcases List.mem_append.1 hcon with hc | hc
        · exact h hc
        · simp only [List.mem_singleton] at hc
          exact hr₀id hc
  · rw [hrows, List.pairwise_map]
    have hndPW : s.rows.Pairwise (fun a b => a.id ≠ b.id) :=
      List.pairwise_map.mp hnd
    refine List.Pairwise.imp_of_mem ?_ (hndPW.and hB)
    intro a b ha hb hab hga hgb hua hubm
    obtain ⟨hne, hBab⟩ := hab
    rw [hggk] at hga hgb
    rw [hgid] at hua hubm
    by_cases haid : a.id = rid
    · by_cases hbid : b.id = rid
      · exact absurd (haid.trans hbid.symm) hne
      · simp only [haid, if_true, hbid, if_false, patchAtPos_rowPosition]
        have hbu : b.id ∈ upd := by
          rcases List.mem_append.1 hubm with h | h
          · exact h
          · simp only [List.mem_singleton] at h; exact absurd h hbid
        rcases hA b hb hgb with h | h
        · exact Nat.ne_of_gt h
        · exact absurd hbu h
    · by_cases hbid : b.id = rid
      · simp only [haid, if_false, hbid, if_true, patchAtPos_rowPosition]
        have hau : a.id ∈ upd := by
          rcases List.mem_append.1 hua with h | h
          · exact h
          · simp only [List.mem_singleton] at h; exact absurd h haid
        rcases hA a ha hga with h | h
        · exact Nat.ne_of_lt h
        · exact absurd hau h
      · simp only [haid, if_false, hbid]
        have hau : a.id ∈ upd := by
          rcases List.mem_append.1 hua with h | h
          · exact h
          · simp only [List.mem_singleton] at h; exact absurd h haid
        have hbu : b.id ∈ upd := by
          rcases List.mem_append.1 hubm with h | h
          · exact h
          · simp only [List.mem_singleton] at h; exact absurd h hbid
        exact hBab hga hgb hau hbu
  · intro r hr hg
    rw [hrows] at hr
    obtain ⟨r₀, hr₀, rfl⟩ := List.mem_map.1 hr
    rw [hggk] at hg
    rw [hgid]
    rcases hC r₀ hr₀ hg with h | h
    · exact Or.inl (List.mem_append.2 (Or.inl h))
    · exact Or.inr h
  · rw [hrows]
    exact filter_not_gk_map_guard gk k rid _
      (fun r => patchAtPos_gkPred gk k k it now i r) s.rows
      (fun r hr hid => hex r hr (hid ▸ hmem))

/-- Invariant step for the insert branch (fresh row). -/
theorem urr_create_inv (gk : String) (k : RowType) (ex upd : List Nat) (i : Nat)
    (s sNew : Store) (it : ItemPatch) (now : Nat)
    (hcr : create_new_related_row s gk it k i now = .ok sNew)
    (hinv : urrInv gk k ex upd i s) :
    urrInv gk k ex (upd ++ [s.nextId]) (i + 1) sNew ∧ s.nextId ≤ sNew.nextId ∧
      sNew.rows.filter (fun r => !gkRowsPred gk k r) =
        s.rows.filter (fun r => !gkRowsPred gk k r) := by
  obtain ⟨⟨hwb, hnd⟩, hexb, hub, hex, hA, hB, hC⟩ := hinv
  obtain ⟨nr, hrows, hnid, hidnr, hgknr, hknr, hposnr⟩ := create_new_related_row_ok hcr
  have hgkn : gkRowsPred gk k nr = true := by
    simp [gkRowsPred, hgknr, hknr]
  refine ⟨⟨⟨?_, ?_⟩, ?_, ?_, ?_, ?_, ?_, ?_⟩, ?_, ?_⟩
  · intro r hr
    rw [hrows] at hr
    rcases List.mem_append.1 hr with hr | hr
    · rw [hnid]; exact Nat.lt_succ_of_lt (hwb r hr)
    · simp only [List.mem_singleton] at hr
      subst hr; rw [hnid, hidnr]; exact Nat.lt_succ_self _
  · rw [hrows, List.map_append]
    refine List.Nodup.append hnd (by simp) ?_
    simp only [List.map_singleton, List.disjoint_singleton, hidnr]
    intro hcon
    obtain ⟨r₀, hr₀, hr₀id⟩ := List.mem_map.1 hcon
    exact absurd (hr₀id ▸ hwb r₀ hr₀) (lt_irrefl _)
  · intro j hj; rw [hnid]; exact Nat.lt_succ_of_lt (hexb j hj)
  · intro j hj
    rw [hnid]
    rcases List.mem_append.1 hj with hj | hj
    · exact Nat.lt_succ_of_lt (hub j hj)
    · simp only [List.mem_singleton] at hj; subst hj; exact Nat.lt_succ_self _
  · intro r hr hm
    rw [hrows] at hr
    rcases List.mem_append.1 hr with hr | hr
    · exact hex r hr hm
    · simp only [List.mem_singleton] at hr; subst hr; exact hgkn
  · intro r hr hg
    rw [hrows] at hr
    rcases List.mem_append.1 hr with hr | hr
    · rcases hA r hr hg with h | h
      · exact Or.inl (Nat.lt_succ_of_lt h)
      · refine Or.inr fun hcon => ?_
        rcases List.mem_append.1 hcon with hc | hc
        · exact h hc
        · simp only [List.mem_singleton] at hc
          exact absurd (hc ▸ hwb r hr) (lt_irrefl _)
    · simp only [List.mem_singleton] at hr
      subst hr
      exact Or.inl (hposnr ▸ Nat.lt_succ_self i)
  · rw [hrows]
    refine List.pairwise_append.2 ⟨?_, List.pairwise_singleton _ _, ?_⟩
    · refine List.Pairwise.imp_of_mem ?_ hB
      intro a b ha hb hab hga hgb hua hubm
      have hau : a.id ∈ upd := by
        rcases List.mem_append.1 hua with h | h
        · exact h
        · simp only [List.mem_singleton] at h
          exact absurd (h ▸ hwb a ha) (lt_irrefl _)
      have hbu : b.id ∈ upd := by
        rcases List.mem_append.1 hubm with h | h
        · exact h
        · simp only [List.mem_singleton] at h
          exact absurd (h ▸ hwb b hb) (lt_irrefl _)
      exact hab hga hgb hau hbu
    · intro a ha b hb
      simp only [List.mem_singleton] at hb
      subst hb
      intro hga hgb hua hubm
      have hau : a.id ∈ upd := by
        rcases List.mem_append.1 hua with h | h
        · exact h
        · simp only [List.mem_singleton] at h
          exact absurd (h ▸ hwb a ha) (lt_irrefl _)
      rcases hA a ha hga with h | h
      · rw [hposnr]; exact Nat.ne_of_lt h
      · exact absurd hau h
  · intro r hr hg
    rw [hrows] at hr
    rcases List.mem_append.1 hr with hr | hr
    · rcases hC r hr hg with h | h
      · exact Or.inl (List.mem_append.2 (Or.inl h))
      · exact Or.inr h
    · simp only [List.mem_singleton] at hr
      subst hr
      exact Or.inl (List.mem_append.2 (Or.inr (by simp [hidnr])))
  · rw [hnid]; exact Nat.le_succ _
  · rw [hrows, List.filter_append]
    simp [hgkn]

/-- Master invariant of the slot loop of `_update_related_rows`: on
success, the invariant holds of the final store and kept-id list, the id
counter is monotone, and the rows outside the targeted
`(grouping_key, row_type)` are untouched. -/
theorem urrGo_spec (gk : String) (k : RowType) (now : Nat) (existingIds : List Nat) :
    ∀ (slots : List (Option ItemPatch)) (s : Store) (upd : List Nat) (i : Nat)
      (s' : Store) (upd' : List Nat),
      urrGo gk k now existingIds s upd slots i = .ok (s', upd') →
      urrInv gk k existingIds upd i s →
      (∃ i', urrInv gk k existingIds upd' i' s') ∧ s.nextId ≤ s'.nextId ∧
        s'.rows.filter (fun r => !gkRowsPred gk k r) =
          s.rows.filter (fun r => !gkRowsPred gk k r) := by
  intro slots
  induction slots with
  | nil =>
      intro s upd i s' upd' h hinv
      simp only [urrGo, Except.ok.injEq, Prod.mk.injEq] at h
      obtain ⟨rfl, rfl⟩ := h
      exact ⟨⟨i, hinv⟩, le_refl _, rfl⟩
  | cons o rest ih =>
      intro s upd i s' upd' h hinv
      cases o with
      | none =>
          simp only [urrGo] at h
          obtain ⟨hinv', hframe'⟩ := urr_del_inv gk k existingIds upd i s hinv
          obtain ⟨hexit, hle, hframe⟩ := ih _ _ _ _ _ h hinv'
          exact ⟨hexit, hle, hframe.trans hframe'⟩
      | some it =>
          rcases hid : it.id with _ | rid
          · simp only [urrGo, hid] at h
            cases hcr : create_new_related_row s gk it k i now with
            | error e => rw [hcr] at h; exact absurd h (by simp)
            | ok sNew =>
                rw [hcr] at h
                obtain ⟨hinv', hle', hframe'⟩ :=
                  urr_create_inv gk k existingIds upd i s sNew it now hcr hinv
                obtain ⟨hexit, hle, hframe⟩ := ih _ _ _ _ _ h hinv'
                exact ⟨hexit, le_trans hle' hle, hframe.trans hframe'⟩
          · simp only [urrGo, hid] at h
            by_cases hmem : rid ∈ existingIds
            · rw [if_pos hmem] at h
              obtain ⟨hinv', hframe'⟩ :=
                urr_guard_inv gk k existingIds upd i s
                  (setRowPosition (update_existing_related_row s rid it k now) rid i) rid it now
                  hmem (patch_setPos_rows s rid it k now i)
                  (by rw [setRowPosition_preserves, update_existing_nextId]) hinv
              obtain ⟨hexit, hle, hframe⟩ := ih _ _ _ _ _ h hinv'
              refine ⟨hexit, ?_, hframe.trans hframe'⟩
              calc s.nextId
                  = (setRowPosition (update_existing_related_row s rid it k now) rid i).nextId := by
                    rw [setRowPosition_preserves, update_existing_nextId]
                _ ≤ s'.nextId := hle
            · rw [if_neg hmem] at h
              cases hcr : create_new_related_row s gk it k i now with
              | error e => rw [hcr] at h; exact absurd h (by simp)
              | ok sNew =>
                  rw [hcr] at h
                  obtain ⟨hinv', hle', hframe'⟩ :=
                    urr_create_inv gk k existingIds upd i s sNew it now hcr hinv
                  obtain ⟨hexit, hle, hframe⟩ := ih _ _ _ _ _ h hinv'
                  exact ⟨hexit, le_trans hle' hle, hframe.trans hframe'⟩

/-- Derived specification of a successful `_update_related_rows` call on a
well-formed store: well-formedness is preserved, rows outside the targeted
`(grouping_key, row_type)` are untouched, and the remaining targeted rows
have pairwise-distinct positions. -/
theorem update_related_rows_spec (s : Store) (gk : String) (k : RowType)
    (nd : List (Option ItemPatch)) (now : Nat) (s₂ : Store)
    (h : update_related_rows s gk k nd now = .ok s₂)
    (hwf : StoreWF s) :
    StoreWF s₂ ∧ s.nextId ≤ s₂.nextId ∧
      s₂.rows.filter (fun r => !gkRowsPred gk k r) =
        s.rows.filter (fun r => !gkRowsPred gk k r) ∧
      s₂.rows.Pairwise (fun a b => gkRowsPred gk k a = true → gkRowsPred gk k b = true →
        a.rowPosition ≠ b.rowPosition) := by
  unfold update_related_rows at h
  cases hgo : urrGo gk k now ((s.rows.filter (gkRowsPred gk k)).map (fun r => r.id)) s [] nd 0 with
  | error e => rw [hgo] at h; exact absurd h (by simp)
  | ok p =>
      rw [hgo] at h
      obtain ⟨s₁, upd⟩ := p
      simp only [Except.ok.injEq] at h
      have hinv0 : urrInv gk k ((s.rows.filter (gkRowsPred gk k)).map (fun r => r.id)) [] 0 s := by
        refine ⟨hwf, ?_, by simp, ?_, ?_, ?_, ?_⟩
        · intro j hj
          obtain ⟨r₀, hr₀, rfl⟩ := List.mem_map.1 hj
          exact hwf.1 r₀ (List.mem_of_mem_filter hr₀)
        · intro r hr hm
          obtain ⟨r₀, hr₀, hr₀id⟩ := List.mem_map.1 hm
          have hmem₀ := List.mem_of_mem_filter hr₀
          have : r₀ = r := List.inj_on_of_nodup_map hwf.2 hmem₀ hr hr₀id
          exact this ▸ List.of_mem_filter hr₀
        · intro r _ _
          exact Or.inr (by simp)
        · refine List.Pairwise.imp ?_ (List.pairwise_map.mp hwf.2)
          intro a b _ _ _ ha
          exact absurd ha (List.not_mem_nil _)
        · intro r hr hg
          exact Or.inr (List.mem_map.2 ⟨r, List.mem_filter.2 ⟨hr, hg⟩, rfl⟩)
      obtain ⟨⟨i', ⟨hwb', hnd'⟩, _, _, hex', _, hB', hC'⟩, hle, hframe⟩ :=
        urrGo_spec gk k now _ nd s [] 0 s₁ upd hgo hinv0
      have hs₂rows : s₂.rows = s₁.rows.filter (fun r =>
          !(decide (r.id ∈ (s.rows.filter (gkRowsPred gk k)).map (fun r => r.id)) &&
            !(decide (r.id ∈ upd)))) := by rw [← h]
      have hsub : List.Sublist s₂.rows s₁.rows := hs₂rows ▸ List.filter_sublist _
      have hnid₂ : s₂.nextId = s₁.nextId := by rw [← h]
      refine ⟨⟨?_, ?_⟩, ?_, ?_, ?_⟩
      · intro r hr; rw [hnid₂]; exact hwb' r (hsub.subset hr)
      · exact hnd'.sublist (hsub.map _)
      · rw [hnid₂]; exact hle
      · rw [hs₂rows, List.filter_filter, ← hframe]
        refine List.filter_congr fun r hr => ?_
        by_cases hg : gkRowsPred gk k r = true
        · simp [hg]
        · have hq : decide (r.id ∈ (s.rows.filter (gkRowsPred gk k)).map (fun r => r.id)) = false := by
            simp only [decide_eq_false_iff_not]
            intro hcon
            exact hg (hex' r hr hcon)
          simp [hg, hq]
      · refine List.Pairwise.imp_of_mem ?_ (hB'.sublist hsub)
        intro a b ha hb hab hga hgb
        have hidu : ∀ c ∈ s₂.rows, gkRowsPred gk k c = true → c.id ∈ upd := by
          intro c hc hgc
          have hc₁ : c ∈ s₁.rows := hsub.subset hc
          by_cases hd : c.id ∈ upd
          · exact hd
          · rcases hC' c hc₁ hgc with h1 | h1
            · exact absurd h1 hd
            · exfalso
              have hcf := hc
              rw [hs₂rows] at hcf
              have hq := List.of_mem_filter hcf
              simp [h1, hd] at hq
        exact hab hga hgb (hidu a ha hga) (hidu b hb hgb)

/-- Transfer of the no-position-collision invariant across one
`_update_related_rows` call: outside rows are untouched, inside rows end
up pairwise-distinct. -/
theorem noPosCollision_transfer (sOld sNew : List Row) (gk : String) (k : RowType)
    (hold : rowsNoPosCollision sOld)
    (hframe : sNew.filter (fun r => !gkRowsPred gk k r) =
      sOld.filter (fun r => !gkRowsPred gk k r))
    (hP : sNew.Pairwise (fun a b => gkRowsPred gk k a = true → gkRowsPred gk k b = true →
      a.rowPosition ≠ b.rowPosition)) :
    rowsNoPosCollision sNew := by
  rw [rowsNoPosCollision, List.pairwise_iff_forall_sublist]
  intro a b hab hgkey htype
  by_cases hga : gkRowsPred gk k a = true
  · have hgb : gkRowsPred gk k b = true := by
      simp only [gkRowsPred, Bool.and_eq_true, beq_iff_eq] at hga ⊢
      exact ⟨hgkey ▸ hga.1, htype ▸ hga.2⟩
    exact List.pairwise_iff_forall_sublist.mp hP hab hga hgb
  · have hgb : ¬gkRowsPred gk k b = true := by
      simp only [gkRowsPred, Bool.and_eq_true, beq_iff_eq] at hga ⊢
      intro hc
      exact hga ⟨hgkey ▸ hc.1, htype ▸ hc.2⟩
    have hfab : List.Sublist [a, b] (sNew.filter (fun r => !gkRowsPred gk k r)) := by
      have := hab.filter (fun r => !gkRowsPred gk k r)
      simpa [List.filter_cons, hga, hgb] using this
    rw [hframe] at hfab
    have hsub : List.Sublist [a, b] sOld := hfab.trans (List.filter_sublist _)
    exact List.pairwise_iff_forall_sublist.mp hold hsub hgkey htype

theorem applyMainField_rowType (r : Row) (f : MainField) :
    (applyMainField r f).rowType = r.rowType := by
  cases f <;> rfl

theorem applyMainField_rowPosition (r : Row) (f : MainField) :
    (applyMainField r f).rowPosition = r.rowPosition := by
  cases f <;> rfl

theorem applyMainFields_rowType (r : Row) (fs : List MainField) (now : Nat) :
    (applyMainFields r fs now).rowType = r.rowType := by
  unfold applyMainFields
  simp only
  induction fs generalizing r with
  | nil => rfl
  | cons f fs ih => simpa [List.foldl_cons, applyMainField_rowType r f] using ih (applyMainField r f)

theorem applyMainFields_rowPosition (r : Row) (fs : List MainField) (now : Nat) :
    (applyMainFields r fs now).rowPosition = r.rowPosition := by
  unfold applyMainFields
  simp only
  induction fs generalizing r with
  | nil => rfl
  | cons f fs ih =>
      simpa [List.foldl_cons, applyMainField_rowPosition r f] using ih (applyMainField r f)

/-- A row untouched by one upsert phase (wrong key or kind) survives it
verbatim. -/
theorem frame_mem_transfer (sA sB : Store) (gk : String) (k : RowType) (r : Row)
    (hmem : r ∈ sA.rows) (hng : gkRowsPred gk k r = false)
    (hframe : sB.rows.filter (fun x => !gkRowsPred gk k x) =
      sA.rows.filter (fun x => !gkRowsPred gk k x)) : r ∈ sB.rows := by
  have h1 : r ∈ sA.rows.filter (fun x => !gkRowsPred gk k x) :=
    List.mem_filter.2 ⟨hmem, by simp [hng]⟩
  rw [← hframe] at h1
  exact (List.mem_filter.1 h1).1

theorem umcScalar_wf (s : Store) (entryId : Nat) (fs : List MainField) (now : Nat)
    (hwf : StoreWF s) : StoreWF (umcScalar s entryId fs now) := by
  unfold umcScalar
  split
  · constructor
    · intro r hr
      obtain ⟨r₀, hr₀, rfl⟩ := List.mem_map.1 hr
      have : ((if r₀.id = entryId then applyMainFields r₀ fs now else r₀) : Row).id = r₀.id := by
        split <;> simp [applyMainFields_id]
      rw [this]
      exact hwf.1 r₀ hr₀
    · show ((List.map _ s.rows).map (fun (r : Row) => r.id)).Nodup
      rw [List.map_map]
      have : ((fun (r : Row) => r.id) ∘ fun r =>
          if r.id = entryId then applyMainFields r fs now else r) = fun r => r.id := by
        funext r
        by_cases hr : r.id = entryId <;> simp [Function.comp, hr, applyMainFields_id]
      rw [this]
      exact hwf.2
  · exact hwf

theorem umcScalar_noColl (s : Store) (entryId : Nat) (fs : List MainField) (now : Nat)
    (hnc : rowsNoPosCollision s.rows)
    (hno : ∀ v, MainField.groupingKey v ∉ fs) :
    rowsNoPosCollision (umcScalar s entryId fs now).rows := by
  unfold umcScalar
  split
  · show rowsNoPosCollision (s.rows.map _)
    rw [rowsNoPosCollision, List.pairwise_map]
    refine hnc.imp ?_
    intro a b hab
    have key : ∀ r : Row,
        ((if r.id = entryId then applyMainFields r fs now else r) : Row).groupingKey =
            r.groupingKey ∧
          ((if r.id = entryId then applyMainFields r fs now else r) : Row).rowType = r.rowType ∧
          ((if r.id = entryId then applyMainFields r fs now else r) : Row).rowPosition =
            r.rowPosition := by
      intro r
      split
      · exact ⟨applyMainFields_groupingKey r fs now hno, applyMainFields_rowType r fs now,
          applyMainFields_rowPosition r fs now⟩
      · exact ⟨rfl, rfl, rfl⟩
    rw [(key a).1, (key a).2.1, (key a).2.2, (key b).1, (key b).2.1, (key b).2.2]
    exact hab
  · exact hnc

/-- The three-phase structure of a successful
`_update_main_entry_comprehensive`. -/
theorem umc_phases (s : Store) (entryId : Nat) (d : UpdateData) (cur : Row) (now : Nat)
    (s₄ : Store) (h : update_main_entry_comprehensive s entryId d cur now = .ok s₄) :
    ∃ s₂ s₃,
      update_related_rows (umcScalar s entryId d.fields now) (umcGk cur) .prb
        (d.prbs.getD []) now = .ok s₂ ∧
      update_related_rows s₂ (umcGk cur) .hiim (d.hiims.getD []) now = .ok s₃ ∧
      update_related_rows s₃ (umcGk cur) .issue (d.issues.getD []) now = .ok s₄ := by
  unfold update_main_entry_comprehensive at h
  cases h1 : update_related_rows (umcScalar s entryId d.fields now) (umcGk cur) .prb
      (d.prbs.getD []) now with
  | error e => simp only [h1] at h; exact absurd h (by simp)
  | ok s₂ =>
      simp only [h1] at h
      cases h2 : update_related_rows s₂ (umcGk cur) .hiim (d.hiims.getD []) now with
      | error e => simp only [h2] at h; exact absurd h (by simp)
      | ok s₃ =>
          simp only [h2] at h
          cases h3 : update_related_rows s₃ (umcGk cur) .issue (d.issues.getD []) now with
          | error e => simp only [h3] at h; exact absurd h (by simp)
          | ok s₄' =>
              simp only [h3, Except.ok.injEq] at h
              exact ⟨s₂, s₃, rfl, h2, h ▸ h3⟩

/-- A successful comprehensive update on a well-formed store with no
caller-supplied `grouping_key` (and hence no `row_type`/`row_position`
overwrite either, which the payload cannot express) preserves
well-formedness and the position-collision-freedom invariant. -/
theorem umc_noPosCollision (s : Store) (entryId : Nat) (d : UpdateData) (cur : Row)
    (now : Nat) (s₄ : Store)
    (h : update_main_entry_comprehensive s entryId d cur now = .ok s₄)
    (hwf : StoreWF s) (hnc : rowsNoPosCollision s.rows)
    (hno : ∀ v, MainField.groupingKey v ∉ d.fields) :
    StoreWF s₄ ∧ rowsNoPosCollision s₄.rows := by
  obtain ⟨s₂, s₃, h1, h2, h3⟩ := umc_phases s entryId d cur now s₄ h
  have hwf1 := umcScalar_wf s entryId d.fields now hwf
  have hnc1 := umcScalar_noColl s entryId d.fields now hnc hno
  obtain ⟨hwf2, _, hfr2, hP2⟩ := update_related_rows_spec _ _ _ _ _ _ h1 hwf1
  have hnc2 := noPosCollision_transfer _ _ _ _ hnc1 hfr2 hP2
  obtain ⟨hwf3, _, hfr3, hP3⟩ := update_related_rows_spec _ _ _ _ _ _ h2 hwf2
  have hnc3 := noPosCollision_transfer _ _ _ _ hnc2 hfr3 hP3
  obtain ⟨hwf4, _, hfr4, hP4⟩ := update_related_rows_spec _ _ _ _ _ _ h3 hwf3
  exact ⟨hwf4, noPosCollision_transfer _ _ _ _ hnc3 hfr4 hP4⟩

/-- Tracking the `main` row through a successful comprehensive update: it
survives as the scalar-phase result, and with unique ids it is the only
row carrying the target id. -/
theorem umc_main_row (s : Store) (entryId : Nat) (d : UpdateData) (cur : Row)
    (now : Nat) (s₄ : Store)
    (h : update_main_entry_comprehensive s entryId d cur now = .ok s₄)
    (hwf : StoreWF s)
    (hcur_mem : cur ∈ s.rows) (hcurid : cur.id = entryId)
    (hmain : cur.rowType = .main) :
    StoreWF s₄ ∧
      (if d.fields = [] then cur else applyMainFields cur d.fields now) ∈ s₄.rows ∧
      ∀ r' ∈ s₄.rows, r'.id = entryId →
        r' = (if d.fields = [] then cur else applyMainFields cur d.fields now) := by
  obtain ⟨s₂, s₃, h1, h2, h3⟩ := umc_phases s entryId d cur now s₄ h
  have hwf1 := umcScalar_wf s entryId d.fields now hwf
  obtain ⟨hwf2, _, hfr2, _⟩ := update_related_rows_spec _ _ _ _ _ _ h1 hwf1
  obtain ⟨hwf3, _, hfr3, _⟩ := update_related_rows_spec _ _ _ _ _ _ h2 hwf2
  obtain ⟨hwf4, _, hfr4, _⟩ := update_related_rows_spec _ _ _ _ _ _ h3 hwf3
  set tr : Row := if d.fields = [] then cur else applyMainFields cur d.fields now with htr
  have htr_type : tr.rowType = RowType.main := by
    rw [htr]; split
    · exact hmain
    · rw [applyMainFields_rowType]; exact hmain
  have htr_mem1 : tr ∈ (umcScalar s entryId d.fields now).rows := by
    unfold umcScalar
    rcases Decidable.em (d.fields = []) with hfs | hfs
    · simp only [hfs, ne_eq, not_true_eq_false, if_false]
      rw [htr]; simp only [hfs, if_true]
      exact hcur_mem
    · simp only [ne_eq, hfs, not_false_eq_true, if_true]
      refine List.mem_map.2 ⟨cur, hcur_mem, ?_⟩
      rw [htr]
      simp [hcurid, hfs]
  have htr_ng : ∀ k : RowType, k ≠ .main → gkRowsPred (umcGk cur) k tr = false := by
    intro k hk
    simp only [gkRowsPred, Bool.and_eq_false_iff]
    right
    rw [htr_type]
    simp only [beq_eq_false_iff_ne, ne_eq]
    exact fun hc => hk (by rw [hc])
  have htr_mem2 : tr ∈ s₂.rows :=
    frame_mem_transfer _ _ _ _ _ htr_mem1 (htr_ng .prb (by simp)) hfr2
  have htr_mem3 : tr ∈ s₃.rows :=
    frame_mem_transfer _ _ _ _ _ htr_mem2 (htr_ng .hiim (by simp)) hfr3
  have htr_mem4 : tr ∈ s₄.rows :=
    frame_mem_transfer _ _ _ _ _ htr_mem3 (htr_ng .issue (by simp)) hfr4
  have htr_id : tr.id = entryId := by
    rw [htr]; split
    · exact hcurid
    · rw [applyMainFields_id]; exact hcurid
  refine ⟨hwf4, htr_mem4, ?_⟩
  intro r' hr' hr'id
  exact List.inj_on_of_nodup_map hwf4.2 hr' htr_mem4 (by rw [hr'id, htr_id])

/-- Every row inserted by `create_entry` carries the derived grouping
key. -/
theorem createdRows_groupingKey (e : EntryData) (now sid : Nat) :
    ∀ r ∈ createdRows e now sid,
      r.groupingKey = generate_grouping_key e.date e.applicationName := by
  intro r hr
  simp only [createdRows] at hr
  rcases List.mem_cons.1 hr with hr | hr
  · subst hr; rfl
  · rcases List.mem_append.1 hr with hr | hr
    · rcases List.mem_append.1 hr with hr | hr
      · obtain ⟨it, p, j, rfl⟩ := childRows_mem hr
        rfl
      · obtain ⟨it, p, j, rfl⟩ := childRows_mem hr
        rfl
    · obtain ⟨it, p, j, rfl⟩ := childRows_mem hr
      rfl

theorem childRows_length_of_all_some {α : Type} (mk : α → Nat → Nat → Row) :
    ∀ (items : List (Option α)) (pos rid : Nat),
      (childRows mk items pos rid).length = countSome items := by
  intro items
  induction items with
  | nil => intro pos rid; rfl
  | cons o rest ih =>
      intro pos rid
      cases o with
      | none => simpa [childRows, countSome, List.filterMap_cons] using ih (pos + 1) rid
      | some it => simpa [childRows, countSome, List.filterMap_cons] using ih (pos + 1) (rid + 1)

theorem createdRows_length (e : EntryData) (now sid : Nat) :
    (createdRows e now sid).length =
      1 + countSome e.prbs + countSome e.hiims + countSome e.issues := by
  simp only [createdRows, List.length_cons, List.length_append,
    childRows_length_of_all_some]
  omega

theorem formatIndividual_base (r : Row) : (formatIndividual r).base = r := by
  unfold formatIndividual
  cases r.rowType <;> rfl

theorem mem_sortRows (l : List Row) (r : Row) : r ∈ sortRows l ↔ r ∈ l :=
  (List.perm_insertionSort _ l).mem_iff

/-- Membership characterization of the row-level filter path: a row's
base record appears in the output exactly when the row passes the
application/date/kind predicate. -/
theorem mem_individual_rows (s : Store) (app : String) (startD endD : Option String)
    (f : Option RowFilter) (m : Row) :
    m ∈ (get_individual_rows_by_application s app startD endD f).map
        (fun fr => fr.base) ↔
      m ∈ s.rows ∧ (decide (m.applicationName = app) && inDateRange startD endD m &&
        (match f with | some ff => rowFilterPred s ff m | none => true)) = true := by
  unfold get_individual_rows_by_application
  rw [List.map_map]
  have hfb : ((fun fr => FormattedRow.base fr) ∘ formatIndividual) = id :=
    funext formatIndividual_base
  rw [hfb, List.map_id, mem_sortRows, List.mem_filter]

/-- Positions inside one child-kind insertion loop are strictly
increasing (each row gets its slot index), and bounded below by the
starting index. -/
theorem childRows_pos {α : Type} (mk : α → Nat → Nat → Row)
    (hmk : ∀ it p j, (mk it p j).rowPosition = p) :
    ∀ (items : List (Option α)) (pos rid : Nat),
      (childRows mk items pos rid).Pairwise
          (fun a b => a.rowPosition < b.rowPosition) ∧
        ∀ r ∈ childRows mk items pos rid, pos ≤ r.rowPosition := by
  intro items
  induction items with
  | nil => intro pos rid; exact ⟨List.Pairwise.nil, by simp [childRows]⟩
  | cons o rest ih =>
      intro pos rid
      cases o with
      | none =>
          obtain ⟨hpw, hbd⟩ := ih (pos + 1) rid
          exact ⟨hpw, fun r hr => Nat.le_of_succ_le (hbd r hr)⟩
      | some it =>
          obtain ⟨hpw, hbd⟩ := ih (pos + 1) (rid + 1)
          refine ⟨List.Pairwise.cons ?_ hpw, ?_⟩
          · intro b hb
            rw [hmk]
            exact Nat.lt_of_succ_le (hbd b hb)
          · intro r hr
            rcases List.mem_cons.1 hr with hr | hr
            · subst hr; rw [hmk]
            · exact Nat.le_of_succ_le (hbd r hr)

/-- The rows of one `create_entry` call are collision-free among
themselves: within a kind positions are the (distinct) slot indices, and
across kinds the `row_type` discriminator differs. -/
theorem createdRows_noPosCollision (e : EntryData) (now sid : Nat) :
    rowsNoPosCollision (createdRows e now sid) := by
  have hkP : ∀ r ∈ childRows (mkPrbRow e now) e.prbs 0 (sid + 1),
      r.rowType = RowType.prb := by
    intro r hr; obtain ⟨it, p, j, rfl⟩ := childRows_mem hr; rfl
  have hkH : ∀ r ∈ childRows (mkHiimRow e now) e.hiims 0 (sid + 1 + countSome e.prbs),
      r.rowType = RowType.hiim := by
    intro r hr; obtain ⟨it, p, j, rfl⟩ := childRows_mem hr; rfl
  have hkI : ∀ r ∈ childRows (mkIssueRow e now) e.issues 0
      (sid + 1 + countSome e.prbs + countSome e.hiims), r.rowType = RowType.issue := by
    intro r hr; obtain ⟨it, p, j, rfl⟩ := childRows_mem hr; rfl
  have hpwP := (childRows_pos (mkPrbRow e now) (fun _ _ _ => rfl) e.prbs 0 (sid + 1)).1
  have hpwH := (childRows_pos (mkHiimRow e now) (fun _ _ _ => rfl) e.hiims 0
    (sid + 1 + countSome e.prbs)).1
  have hpwI := (childRows_pos (mkIssueRow e now) (fun _ _ _ => rfl) e.issues 0
    (sid + 1 + countSome e.prbs + countSome e.hiims)).1
  unfold rowsNoPosCollision
  simp only [createdRows]
  refine List.Pairwise.cons ?_ ?_
  · intro b hb _ htype _
    rcases List.mem_append.1 hb with hb | hb
    · rcases List.mem_append.1 hb with hb | hb
      · rw [show (mainRowOf e now sid).rowType = RowType.main from rfl, hkP b hb] at htype
        exact absurd htype (by simp)
      · rw [show (mainRowOf e now sid).rowType = RowType.main from rfl, hkH b hb] at htype
        exact absurd htype (by simp)
    · rw [show (mainRowOf e now sid).rowType = RowType.main from rfl, hkI b hb] at htype
      exact absurd htype (by simp)
  · refine List.pairwise_append.2 ⟨List.pairwise_append.2 ⟨?_, ?_, ?_⟩, ?_, ?_⟩
    · exact hpwP.imp (fun h _ _ => Nat.ne_of_lt h)
    · exact hpwH.imp (fun h _ _ => Nat.ne_of_lt h)
    · intro a ha b hb _ htype
      rw [hkP a ha, hkH b hb] at htype
      exact absurd htype (by simp)
    · exact hpwI.imp (fun h _ _ => Nat.ne_of_lt h)
    · intro a ha b hb _ htype
      rcases List.mem_append.1 ha with ha | ha
      · rw [hkP a ha, hkI b hb] at htype
        exact absurd htype (by simp)
      · rw [hkH a ha, hkI b hb] at htype
        exact absurd htype (by simp)

/-- On rows sharing date and grouping key, the query order collapses to
position order. -/
theorem rowOrder_uniform (x y : Row) (hd : x.date = y.date)
    (hg : x.groupingKey = y.groupingKey) :
    rowOrder x y ↔ x.rowPosition ≤ y.rowPosition := by
  unfold rowOrder
  constructor
  · rintro (h | ⟨-, h | ⟨-, h⟩⟩)
    · rw [hd] at h; exact absurd h (lt_irrefl _)
    · rw [hg] at h; exact absurd h (lt_irrefl _)
    · exact h
  · intro h
    exact Or.inr ⟨hd, Or.inr ⟨hg, h⟩⟩

/-- For a uniform-key row set whose `p`-rows already have strictly
increasing positions, sorting commutes with filtering by `p`: the sorted
list's `p`-rows are exactly the original ones in order.  (Positions of
distinct `p`-rows are distinct, so the position-sorted arrangement is
unique.) -/
theorem sortRows_filter_uniform (l : List Row) (d g : String)
    (hd : ∀ r ∈ l, r.date = d) (hg : ∀ r ∈ l, r.groupingKey = g)
    (p : Row → Bool)
    (hmono : (l.filter p).Pairwise (fun a b => a.rowPosition < b.rowPosition)) :
    (sortRows l).filter p = l.filter p := by
  haveI : IsAntisymm Row (fun a b => a.rowPosition < b.rowPosition) :=
    ⟨fun a b h1 h2 => absurd h2 (Nat.lt_asymm h1)⟩
  have hperm : List.Perm ((sortRows l).filter p) (l.filter p) :=
    (List.perm_insertionSort rowOrder l).filter p
  have hsorted : List.Pairwise rowOrder (sortRows l) :=
    List.sorted_insertionSort rowOrder l
  have hmemsort : ∀ r ∈ sortRows l, r ∈ l := fun r hr => (mem_sortRows l r).1 hr
  have hle : ((sortRows l).filter p).Pairwise
      (fun a b => a.rowPosition ≤ b.rowPosition) := by
    have hfil : ((sortRows l).filter p).Pairwise rowOrder :=
      hsorted.sublist (List.filter_sublist _)
    refine List.Pairwise.imp_of_mem ?_ hfil
    intro a b ha hb hab
    have ha' := hmemsort a (List.mem_of_mem_filter ha)
    have hb' := hmemsort b (List.mem_of_mem_filter hb)
    exact (rowOrder_uniform a b ((hd a ha').trans (hd b hb').symm)
      ((hg a ha').trans (hg b hb').symm)).1 hab
  have hndorig : ((l.filter p).map (fun r => r.rowPosition)).Nodup :=
    List.pairwise_map.2 (hmono.imp (fun h => Nat.ne_of_lt h))
  have hnd : (((sortRows l).filter p).map (fun r => r.rowPosition)).Nodup :=
    ((hperm.map (fun r => r.rowPosition)).symm).nodup hndorig
  have hlt : ((sortRows l).filter p).Pairwise
      (fun a b => a.rowPosition < b.rowPosition) := by
    have hne : ((sortRows l).filter p).Pairwise
        (fun a b => a.rowPosition ≠ b.rowPosition) := List.pairwise_map.1 hnd
    exact (hle.and hne).imp (fun h => lt_of_le_of_ne h.1 h.2)
  exact List.eq_of_perm_of_sorted hperm hlt hmono

theorem foldl_insertGrouped_uniform (g : String) :
    ∀ (rows : List Row) (A : GroupAcc), (∀ r ∈ rows, r.groupingKey = g) →
      rows.foldl insertGrouped [(g, A)] = [(g, rows.foldl updateAcc A)] := by
  intro rows
  induction rows with
  | nil => intro A _; rfl
  | cons r rest ih =>
      intro A h
      have hr : r.groupingKey = g := h r (List.mem_cons_self _ _)
      simp only [List.foldl_cons]
      rw [show insertGrouped [(g, A)] r = [(g, updateAcc A r)] from by
        simp [insertGrouped, hr]]
      exact ih (updateAcc A r) (fun x hx => h x (List.mem_cons_of_mem _ hx))

/-- Grouping a non-empty uniform-key row sequence yields one partition. -/
theorem groupRows_uniform (rows : List Row) (g : String)
    (hg : ∀ r ∈ rows, r.groupingKey = g) (hne : rows ≠ []) :
    groupRows rows = [(g, rows.foldl updateAcc emptyAcc)] := by
  cases rows with
  | nil => exact absurd rfl hne
  | cons r rest =>
      unfold groupRows
      simp only [List.foldl_cons]
      have hr : r.groupingKey = g := hg r (List.mem_cons_self _ _)
      rw [show insertGrouped [] r = [(r.groupingKey, updateAcc emptyAcc r)] from rfl, hr]
      exact foldl_insertGrouped_uniform g rest (updateAcc emptyAcc r)
        (fun x hx => hg x (List.mem_cons_of_mem _ hx))

theorem foldl_updateAcc_prbs :
    ∀ (rows : List Row) (A : GroupAcc),
      (rows.foldl updateAcc A).prbs =
        A.prbs ++ rows.filter (fun r => r.rowType == RowType.prb) := by
  intro rows
  induction rows with
  | nil => intro A; simp
  | cons r rest ih =>
      intro A
      simp only [List.foldl_cons, List.filter_cons]
      cases h : r.rowType <;> simp [updateAcc, h, ih]

theorem foldl_updateAcc_hiims :
    ∀ (rows : List Row) (A : GroupAcc),
      (rows.foldl updateAcc A).hiims =
        A.hiims ++ rows.filter (fun r => r.rowType == RowType.hiim) := by
  intro rows
  induction rows with
  | nil => intro A; simp
  | cons r rest ih =>
      intro A
      simp only [List.foldl_cons, List.filter_cons]
      cases h : r.rowType <;> simp [updateAcc, h, ih]

theorem foldl_updateAcc_issues :
    ∀ (rows : List Row) (A : GroupAcc),
      (rows.foldl updateAcc A).issues =
        A.issues ++ (rows.filter (fun r => r.rowType == RowType.issue)).map issueViewOf := by
  intro rows
  induction rows with
  | nil => intro A; simp
  | cons r rest ih =>
      intro A
      simp only [List.foldl_cons, List.filter_cons]
      cases h : r.rowType <;> simp [updateAcc, h, ih]

theorem foldl_updateAcc_main_nil :
    ∀ (rows : List Row) (A : GroupAcc),
      rows.filter (fun r => r.rowType == RowType.main) = [] →
      (rows.foldl updateAcc A).main = A.main := by
  intro rows
  induction rows with
  | nil => intro A _; rfl
  | cons r rest ih =>
      intro A h
      simp only [List.filter_cons] at h
      simp only [List.foldl_cons]
      cases hk : r.rowType with
      | main => rw [hk] at h; simp at h
      | prb =>
          rw [hk] at h
          rw [ih _ (by simpa using h)]
          simp [updateAcc, hk]
      | hiim =>
          rw [hk] at h
          rw [ih _ (by simpa using h)]
          simp [updateAcc, hk]
      | issue =>
          rw [hk] at h
          rw [ih _ (by simpa using h)]
          simp [updateAcc, hk]

theorem foldl_updateAcc_main_single :
    ∀ (rows : List Row) (A : GroupAcc) (m : Row),
      rows.filter (fun r => r.rowType == RowType.main) = [m] →
      (rows.foldl updateAcc A).main = some m := by
  intro rows
  induction rows with
  | nil => intro A m h; simp at h
  | cons r rest ih =>
      intro A m h
      simp only [List.filter_cons] at h
      simp only [List.foldl_cons]
      cases hk : r.rowType with
      | main =>
          rw [hk] at h
          have h' : r :: rest.filter (fun r => r.rowType == RowType.main) = [m] := by
            simpa using h
          have hrm : r = m := (List.cons_eq_cons.1 h').1
          have hrest : rest.filter (fun r => r.rowType == RowType.main) = [] :=
            (List.cons_eq_cons.1 h').2
          rw [foldl_updateAcc_main_nil rest _ hrest]
          rw [show (updateAcc A r).main = some r from by simp [updateAcc, hk], hrm]
      | prb =>
          rw [hk] at h
          exact ih _ m (by simpa using h)
      | hiim =>
          rw [hk] at h
          exact ih _ m (by simpa using h)
      | issue =>
          rw [hk] at h
          exact ih _ m (by simpa using h)

theorem createdRows_applicationName (e : EntryData) (now sid : Nat) :
    ∀ r ∈ createdRows e now sid, r.applicationName = e.applicationName := by
  intro r hr
  simp only [createdRows] at hr
  rcases List.mem_cons.1 hr with hr | hr
  · subst hr; rfl
  · rcases List.mem_append.1 hr with hr | hr
    · rcases List.mem_append.1 hr with hr | hr
      · obtain ⟨it, p, j, rfl⟩ := childRows_mem hr
        rfl
      · obtain ⟨it, p, j, rfl⟩ := childRows_mem hr
        rfl
    · obtain ⟨it, p, j, rfl⟩ := childRows_mem hr
      rfl

theorem createdRows_date (e : EntryData) (now sid : Nat) :
    ∀ r ∈ createdRows e now sid, r.date = e.date := by
  intro r hr
  simp only [createdRows] at hr
  rcases List.mem_cons.1 hr with hr | hr
  · subst hr; rfl
  · rcases List.mem_append.1 hr with hr | hr
    · rcases List.mem_append.1 hr with hr | hr
      · obtain ⟨it, p, j, rfl⟩ := childRows_mem hr
        rfl
      · obtain ⟨it, p, j, rfl⟩ := childRows_mem hr
        rfl
    · obtain ⟨it, p, j, rfl⟩ := childRows_mem hr
      rfl

/-- Kind-wise decomposition of one `create_entry`'s row set. -/
theorem createdRows_filter_kind (e : EntryData) (now sid : Nat) :
    (createdRows e now sid).filter (fun r => r.rowType == RowType.main) =
        [mainRowOf e now sid] ∧
    (createdRows e now sid).filter (fun r => r.rowType == RowType.prb) =
        childRows (mkPrbRow e now) e.prbs 0 (sid + 1) ∧
    (createdRows e now sid).filter (fun r => r.rowType == RowType.hiim) =
        childRows (mkHiimRow e now) e.hiims 0 (sid + 1 + countSome e.prbs) ∧
    (createdRows e now sid).filter (fun r => r.rowType == RowType.issue) =
        childRows (mkIssueRow e now) e.issues 0
          (sid + 1 + countSome e.prbs + countSome e.hiims) := by
  have hkP : ∀ r ∈ childRows (mkPrbRow e now) e.prbs 0 (sid + 1),
      r.rowType = RowType.prb := by
    intro r hr; obtain ⟨it, p, j, rfl⟩ := childRows_mem hr; rfl
  have hkH : ∀ r ∈ childRows (mkHiimRow e now) e.hiims 0 (sid + 1 + countSome e.prbs),
      r.rowType = RowType.hiim := by
    intro r hr; obtain ⟨it, p, j, rfl⟩ := childRows_mem hr; rfl
  have hkI : ∀ r ∈ childRows (mkIssueRow e now) e.issues 0
      (sid + 1 + countSome e.prbs + countSome e.hiims),
      r.rowType = RowType.issue := by
    intro r hr; obtain ⟨it, p, j, rfl⟩ := childRows_mem hr; rfl
  have ePnil : ∀ k : RowType, k ≠ RowType.prb →
      (childRows (mkPrbRow e now) e.prbs 0 (sid + 1)).filter
        (fun r => r.rowType == k) = [] := fun k hk =>
    List.filter_eq_nil_iff.2 (fun a ha hc => by
      rw [hkP a ha] at hc; exact hk (eq_of_beq hc).symm)
  have eHnil : ∀ k : RowType, k ≠ RowType.hiim →
      (childRows (mkHiimRow e now) e.hiims 0 (sid + 1 + countSome e.prbs)).filter
        (fun r => r.rowType == k) = [] := fun k hk =>
    List.filter_eq_nil_iff.2 (fun a ha hc => by
      rw [hkH a ha] at hc; exact hk (eq_of_beq hc).symm)
  have eInil : ∀ k : RowType, k ≠ RowType.issue →
      (childRows (mkIssueRow e now) e.issues 0
        (sid + 1 + countSome e.prbs + countSome e.hiims)).filter
        (fun r => r.rowType == k) = [] := fun k hk =>
    List.filter_eq_nil_iff.2 (fun a ha hc => by
      rw [hkI a ha] at hc; exact hk (eq_of_beq hc).symm)
  have ePself : (childRows (mkPrbRow e now) e.prbs 0 (sid + 1)).filter
      (fun r => r.rowType == RowType.prb) =
      childRows (mkPrbRow e now) e.prbs 0 (sid + 1) :=
    List.filter_eq_self.2 (fun a ha => by rw [hkP a ha]; rfl)
  have eHself : (childRows (mkHiimRow e now) e.hiims 0
      (sid + 1 + countSome e.prbs)).filter
      (fun r => r.rowType == RowType.hiim) =
      childRows (mkHiimRow e now) e.hiims 0 (sid + 1 + countSome e.prbs) :=
    List.filter_eq_self.2 (fun a ha => by rw [hkH a ha]; rfl)
  have eIself : (childRows (mkIssueRow e now) e.issues 0
      (sid + 1 + countSome e.prbs + countSome e.hiims)).filter
      (fun r => r.rowType == RowType.issue) =
      childRows (mkIssueRow e now) e.issues 0
        (sid + 1 + countSome e.prbs + countSome e.hiims) :=
    List.filter_eq_self.2 (fun a ha => by rw [hkI a ha]; rfl)
  refine ⟨?_, ?_, ?_, ?_⟩
  · simp only [createdRows, List.filter_cons, List.filter_append]
    rw [show ((mainRowOf e now sid).rowType == RowType.main) = true from rfl,
      ePnil RowType.main (by simp), eHnil RowType.main (by simp),
      eInil RowType.main (by simp)]
    rfl
  · simp only [createdRows, List.filter_cons, List.filter_append]
    rw [show ((mainRowOf e now sid).rowType == RowType.prb) = false from rfl,
      ePself, eHnil RowType.prb (by simp), eInil RowType.prb (by simp)]
    simp
  · simp only [createdRows, List.filter_cons, List.filter_append]
    rw [show ((mainRowOf e now sid).rowType == RowType.hiim) = false from rfl,
      eHself, ePnil RowType.hiim (by simp), eInil RowType.hiim (by simp)]
    simp
  · simp only [createdRows, List.filter_cons, List.filter_append]
    rw [show ((mainRowOf e now sid).rowType == RowType.issue) = false from rfl,
      eIself, ePnil RowType.issue (by simp), eHnil RowType.issue (by simp)]
    simp

theorem childRows_length_all_some {α : Type} (mk : α → Nat → Nat → Row) :
    ∀ (items : List (Option α)), (∀ o ∈ items, o ≠ none) → ∀ pos rid,
      (childRows mk items pos rid).length = items.length := by
  intro items
  induction items with
  | nil => intro _ pos rid; rfl
  | cons o rest ih =>
      intro h pos rid
      cases o with
      | none => exact absurd rfl (h none (List.mem_cons_self _ _))
      | some it =>
          simp only [childRows, List.length_cons]
          rw [ih (fun x hx => h x (List.mem_cons_of_mem _ hx)) (pos + 1) (rid + 1)]

theorem childRows_map_proj {α β : Type} (mk : α → Nat → Nat → Row)
    (proj : Row → β) (f : α → β) (hpf : ∀ it p j, proj (mk it p j) = f it) :
    ∀ (items : List (Option α)) (pos rid : Nat),
      (childRows mk items pos rid).map proj = (items.filterMap id).map f := by
  intro items
  induction items with
  | nil => intro pos rid; rfl
  | cons o rest ih =>
      intro pos rid
      cases o with
      | none => simpa [childRows, List.filterMap_cons] using ih (pos + 1) rid
      | some it =>
          simp only [childRows, List.map_cons, List.filterMap_cons, hpf]
          rw [ih (pos + 1) (rid + 1)]
          rfl

/-- Grouped round-trip of one freshly created entry: reading the
application back through `get_entries_by_application` returns exactly one
grouped entry whose main row and child arrays are the created rows, in
creation (= position) order. -/
theorem create_grouped_roundtrip (e : EntryData) (now : Nat) :
    get_entries_by_application (create_entry emptyStore e now none).1
        e.applicationName none none =
      [ListedEntry.entry (mainRowOf e now 1)
        (childRows (mkPrbRow e now) e.prbs 0 2)
        (childRows (mkHiimRow e now) e.hiims 0 (2 + countSome e.prbs))
        ((childRows (mkIssueRow e now) e.issues 0
            (2 + countSome e.prbs + countSome e.hiims)).map issueViewOf)] := by
  have hrows : (create_entry emptyStore e now none).1.rows = createdRows e now 1 := by
    simp [create_entry, emptyStore]
  have happ := createdRows_applicationName e now 1
  have hd := createdRows_date e now 1
  have hg := createdRows_groupingKey e now 1
  have hfk := createdRows_filter_kind e now 1
  simp only [show (1 : Nat) + 1 = 2 from rfl] at hfk
  have hfil : (createdRows e now 1).filter
      (fun r => decide (r.applicationName = e.applicationName) &&
        inDateRange none none r) = createdRows e now 1 :=
    List.filter_eq_self.2 (fun r hr => by simp [inDateRange, happ r hr])
  have hsfM : (sortRows (createdRows e now 1)).filter
      (fun r => r.rowType == RowType.main) = [mainRowOf e now 1] := by
    rw [sortRows_filter_uniform (createdRows e now 1) e.date
      (generate_grouping_key e.date e.applicationName) hd hg
      (fun r => r.rowType == RowType.main) (by rw [hfk.1]; simp), hfk.1]
  have hsfP : (sortRows (createdRows e now 1)).filter
      (fun r => r.rowType == RowType.prb) =
      childRows (mkPrbRow e now) e.prbs 0 2 := by
    rw [sortRows_filter_uniform (createdRows e now 1) e.date
      (generate_grouping_key e.date e.applicationName) hd hg
      (fun r => r.rowType == RowType.prb)
      (by rw [hfk.2.1]
          exact (childRows_pos (mkPrbRow e now) (fun _ _ _ => rfl) e.prbs 0 2).1),
      hfk.2.1]
  have hsfH : (sortRows (createdRows e now 1)).filter
      (fun r => r.rowType == RowType.hiim) =
      childRows (mkHiimRow e now) e.hiims 0 (2 + countSome e.prbs) := by
    rw [sortRows_filter_uniform (createdRows e now 1) e.date
      (generate_grouping_key e.date e.applicationName) hd hg
      (fun r => r.rowType == RowType.hiim)
      (by rw [hfk.2.2.1]
          exact (childRows_pos (mkHiimRow e now) (fun _ _ _ => rfl) e.hiims 0
            (2 + countSome e.prbs)).1),
      hfk.2.2.1]
  have hsfI : (sortRows (createdRows e now 1)).filter
      (fun r => r.rowType == RowType.issue) =
      childRows (mkIssueRow e now) e.issues 0
        (2 + countSome e.prbs + countSome e.hiims) := by
    rw [sortRows_filter_uniform (createdRows e now 1) e.date
      (generate_grouping_key e.date e.applicationName) hd hg
      (fun r => r.rowType == RowType.issue)
      (by rw [hfk.2.2.2]
          exact (childRows_pos (mkIssueRow e now) (fun _ _ _ => rfl) e.issues 0
            (2 + countSome e.prbs + countSome e.hiims)).1),
      hfk.2.2.2]
  have hne : sortRows (createdRows e now 1) ≠ [] := by
    intro hnil
    have hlen : (sortRows (createdRows e now 1)).length =
        (createdRows e now 1).length :=
      (List.perm_insertionSort rowOrder _).length_eq
    rw [hnil] at hlen
    simp [createdRows] at hlen
  have hgrp := groupRows_uniform (sortRows (createdRows e now 1))
    (generate_grouping_key e.date e.applicationName)
    (fun r hr => hg r ((mem_sortRows _ r).1 hr)) hne
  have hAmain : ((sortRows (createdRows e now 1)).foldl updateAcc emptyAcc).main =
      some (mainRowOf e now 1) :=
    foldl_updateAcc_main_single _ emptyAcc _ hsfM
  have hAprbs : ((sortRows (createdRows e now 1)).foldl updateAcc emptyAcc).prbs =
      childRows (mkPrbRow e now) e.prbs 0 2 := by
    rw [foldl_updateAcc_prbs, hsfP]; rfl
  have hAhiims : ((sortRows (createdRows e now 1)).foldl updateAcc emptyAcc).hiims =
      childRows (mkHiimRow e now) e.hiims 0 (2 + countSome e.prbs) := by
    rw [foldl_updateAcc_hiims, hsfH]; rfl
  have hAissues : ((sortRows (createdRows e now 1)).foldl updateAcc emptyAcc).issues =
      (childRows (mkIssueRow e now) e.issues 0
        (2 + countSome e.prbs + countSome e.hiims)).map issueViewOf := by
    rw [foldl_updateAcc_issues, hsfI]; rfl
  rw [show get_entries_by_application (create_entry emptyStore e now none).1
        e.applicationName none none =
      ((groupRows (sortRows ((create_entry emptyStore e now none).1.rows.filter
        (fun r => decide (r.applicationName = e.applicationName) &&
          inDateRange none none r)))).map (fun p => listedOf p.1 p.2)).flatten from rfl,
    hrows, hfil, hgrp]
  simp only [List.map_cons, List.map_nil, List.flatten]
  unfold listedOf
  rw [hAmain, hAprbs, hAhiims, hAissues]
  simp

/-! ## Claim theorems -/

/-- C3: creating an entry with `prbs=[null, X]`, `hiims=[null, null]`,
`issues=[Y, Z]` stores no row and reserves no slot for the null
placeholders (exactly one `prb` row, at position 1; no `hiim` rows; two
`issue` rows at positions 0 and 1), and `get_entry_by_id` re-derives the
null padding so retrieval yields `prbs == [null, X]` (X still at slot 1,
never merged into slot 0), `hiims == [null, null]`, `issues == [Y, Z]`
with identical field values. -/
theorem C3_null_padding_alignment :
    (sC3.rows.filter (fun r => r.rowType == RowType.prb)).map
        (fun r => (r.id, r.rowPosition)) = [(2, 1)] ∧
    sC3.rows.filter (fun r => r.rowType == RowType.hiim) = [] ∧
    (sC3.rows.filter (fun r => r.rowType == RowType.issue)).map
        (fun r => (r.id, r.rowPosition)) = [(3, 0), (4, 1)] ∧
    (get_entry_by_id sC3 1).map (fun e => (e.prbs, e.hiims, e.issues)) =
      some ([none, some ⟨2, some "101", some "open",
              some "https://unity.itsm.socgen/saw/Problem/101/general", 1, 7⟩],
            [none, none],
            [some ⟨3, some "net issue", some "15 min", 0, 7⟩,
             some ⟨4, some "slow", some "", 1, 7⟩]) := by decide

/-- C1 (amended): on *create*, every inserted row's `grouping_key` equals
`date + "_" + application_name` derived from the payload, even when the
caller supplies a stale `grouping_key` (the supplied value is ignored).
The *update* path, however, never re-derives the key: a comprehensive
update whose payload does not explicitly assign `grouping_key` leaves the
main row's stored `grouping_key` unchanged — even when the update changes
the `date` field — so a date-changing update leaves the key stale. -/
theorem C1_grouping_key_amended :
    (∀ (s : Store) (e : EntryData) (now : Nat) (failAt : Option Nat) (r : Row),
      r ∈ (create_entry s e now failAt).1.rows →
        r ∈ s.rows ∨ r.groupingKey = generate_grouping_key e.date e.applicationName) ∧
    (∀ (s : Store) (entryId : Nat) (d : UpdateData) (cur : Row) (now : Nat) (s₄ : Store),
      update_main_entry_comprehensive s entryId d cur now = .ok s₄ →
      StoreWF s → cur ∈ s.rows → cur.id = entryId → cur.rowType = .main →
      (∀ v, MainField.groupingKey v ∉ d.fields) →
      ∀ r' ∈ s₄.rows, r'.id = entryId → r'.groupingKey = cur.groupingKey) := by
  constructor
  · intro s e now failAt r hr
    cases failAt with
    | none =>
        simp only [create_entry] at hr
        rcases List.mem_append.1 hr with hr | hr
        · exact Or.inl hr
        · exact Or.inr (createdRows_groupingKey e now s.nextId r hr)
    | some kk =>
        simp only [create_entry] at hr
        by_cases hk : kk < (createdRows e now s.nextId).length
        · rw [if_pos hk] at hr
          exact Or.inl hr
        · rw [if_neg hk] at hr
          rcases List.mem_append.1 hr with hr | hr
          · exact Or.inl hr
          · exact Or.inr (createdRows_groupingKey e now s.nextId r hr)
  · intro s entryId d cur now s₄ h hwf hcur hcid hmain hno r' hr' hr'id
    obtain ⟨_, _, huniq⟩ := umc_main_row s entryId d cur now s₄ h hwf hcur hcid hmain
    rw [huniq r' hr' hr'id]
    split
    · rfl
    · exact applyMainFields_groupingKey cur d.fields now hno

/-- C1 witness: instantiating the amended claim — a create with a bogus
supplied key still derives the key; a date-changing update keeps the old
stored key on the main row. -/
theorem C1_grouping_key_witness :
    (mainRowOf eStale 3 1 ∈ emptyStore.rows ∨
      (mainRowOf eStale 3 1).groupingKey =
        generate_grouping_key eStale.date eStale.applicationName) ∧
    (applyMainFields (mainRowOf baseED 3 1) updDateOnly.fields 9).groupingKey =
      (mainRowOf baseED 3 1).groupingKey :=
  ⟨C1_grouping_key_amended.1 emptyStore eStale 3 none (mainRowOf eStale 3 1) (by decide),
   C1_grouping_key_amended.2 sNoChild 1 updDateOnly (mainRowOf baseED 3 1) 9
     (update_entry sNoChild 1 updDateOnly 9).1 rfl (by decide) (by decide)
     (by decide) (by decide) (fun v hv => by simp [updDateOnly] at hv)
     (applyMainFields (mainRowOf baseED 3 1) updDateOnly.fields 9) (by decide) (by decide)⟩

/-- C1 counterexample: updating an entry's `date` from `2025-10-03` to
`2025-10-04` leaves the stored `grouping_key` at its old value, which no
longer equals `date + "_" + application_name` — the update path never
re-derives the key. -/
theorem C1_grouping_key_counterexample :
    ((update_entry sNoChild 1 updDateOnly 9).1.rows.map
        (fun r => (r.date, r.groupingKey)) =
      [("2025-10-04", "2025-10-03_CVAR ALL")]) ∧
    "2025-10-03_CVAR ALL" ≠ generate_grouping_key "2025-10-04" "CVAR ALL" := by decide

/-- C2 counterexample: an entry created with child-list lengths
`(1, 0, 0)` is read back by `get_entry_by_id` with `hiims = [null]` and
`issues = [null]` — lists of length 1, not the empty lists the claim
requires for kinds created with no children. -/
theorem C2_roundtrip_counterexample :
    eC2single.hiims.length = 0 ∧ eC2single.issues.length = 0 ∧
    (get_entry_by_id sC2single 1).map (fun e => (e.prbs.length, e.hiims, e.issues)) =
      some (1, [none], [none]) := by decide

/-- C2 (amended): the grouped round-trip P1 does hold for
`get_entries_by_application` — a freshly created entry is read back as one
grouped entry whose child arrays are exactly the created child rows in
order, with lengths equal to the input array lengths when those contain no
nulls and with the stored per-item field values; but the
empty-not-null-arrays sentence fails for `get_entry_by_id`, which pads all
three arrays with `null` placeholders up to `max_position + 1 ≥ 1`
positions, so a childless (or single-kind) entry gets `[null]` arrays
there, never `[]`. -/
theorem C2_roundtrip_amended :
    (∀ (e : EntryData) (now : Nat),
      get_entries_by_application (create_entry emptyStore e now none).1
          e.applicationName none none =
        [ListedEntry.entry (mainRowOf e now 1)
          (childRows (mkPrbRow e now) e.prbs 0 2)
          (childRows (mkHiimRow e now) e.hiims 0 (2 + countSome e.prbs))
          ((childRows (mkIssueRow e now) e.issues 0
              (2 + countSome e.prbs + countSome e.hiims)).map issueViewOf)]) ∧
    (∀ (e : EntryData) (now : Nat) (m : Row) (ps hs : List Row)
        (ivs : List IssueView),
      (∀ o ∈ e.prbs, o ≠ none) → (∀ o ∈ e.hiims, o ≠ none) →
      (∀ o ∈ e.issues, o ≠ none) →
      get_entries_by_application (create_entry emptyStore e now none).1
          e.applicationName none none = [ListedEntry.entry m ps hs ivs] →
      ps.length = e.prbs.length ∧ hs.length = e.hiims.length ∧
        ivs.length = e.issues.length) ∧
    (∀ (e : EntryData) (now : Nat),
      (childRows (mkPrbRow e now) e.prbs 0 2).map
          (fun r => (r.prbIdNumber, r.prbIdStatus, r.prbLink)) =
        (e.prbs.filterMap id).map
          (fun it => (some (prbIdOf it), some it.prbIdStatus, some (prbLinkOf it))) ∧
      (childRows (mkHiimRow e now) e.hiims 0 (2 + countSome e.prbs)).map
          (fun r => (r.hiimIdNumber, r.hiimIdStatus, r.hiimLink)) =
        (e.hiims.filterMap id).map
          (fun it => (some (hiimIdOf it), some it.hiimIdStatus, some (hiimLinkOf it))) ∧
      (childRows (mkIssueRow e now) e.issues 0
          (2 + countSome e.prbs + countSome e.hiims)).map
          (fun r => (r.issueDescription, r.timeLoss)) =
        (e.issues.filterMap id).map
          (fun it => (some it.description, some it.timeLoss))) ∧
    (∀ (s : Store) (entryId : Nat) (eOut : ByIdEntry),
      get_entry_by_id s entryId = some eOut →
      eOut.prbs.length = eOut.hiims.length ∧
        eOut.hiims.length = eOut.issues.length ∧
        (eOut.row.rowType = RowType.main → 1 ≤ eOut.prbs.length)) := by
  refine ⟨fun e now => create_grouped_roundtrip e now, ?_, ?_, ?_⟩
  · intro e now m ps hs ivs hP hH hI hret
    rw [create_grouped_roundtrip e now] at hret
    obtain ⟨hm, hps, hhs, hivs⟩ : mainRowOf e now 1 = m ∧
        childRows (mkPrbRow e now) e.prbs 0 2 = ps ∧
        childRows (mkHiimRow e now) e.hiims 0 (2 + countSome e.prbs) = hs ∧
        (childRows (mkIssueRow e now) e.issues 0
          (2 + countSome e.prbs + countSome e.hiims)).map issueViewOf = ivs := by
      simpa using hret
    refine ⟨?_, ?_, ?_⟩
    · rw [← hps]; exact childRows_length_all_some (mkPrbRow e now) e.prbs hP 0 2
    · rw [← hhs]
      exact childRows_length_all_some (mkHiimRow e now) e.hiims hH 0
        (2 + countSome e.prbs)
    · rw [← hivs, List.length_map]
      exact childRows_length_all_some (mkIssueRow e now) e.issues hI 0
        (2 + countSome e.prbs + countSome e.hiims)
  · intro e now
    refine ⟨?_, ?_, ?_⟩
    · exact childRows_map_proj (mkPrbRow e now) _ _ (fun it p j => rfl) e.prbs 0 2
    · exact childRows_map_proj (mkHiimRow e now) _ _ (fun it p j => rfl) e.hiims 0
        (2 + countSome e.prbs)
    · exact childRows_map_proj (mkIssueRow e now) _ _ (fun it p j => rfl) e.issues 0
        (2 + countSome e.prbs + countSome e.hiims)
  · intro s entryId eOut h
    cases hf : s.rows.find? (fun r => r.id == entryId) with
    | none =>
        simp only [get_entry_by_id, hf] at h
        exact Option.noConfusion h
    | some target =>
        simp only [get_entry_by_id, hf] at h
        by_cases hm : target.rowType = RowType.main
        · rw [if_pos hm] at h
          have heq : (⟨target, (byIdArrays s target entryId).1,
              (byIdArrays s target entryId).2.1,
              (byIdArrays s target entryId).2.2⟩ : ByIdEntry) = eOut :=
            Option.some.inj h
          subst heq
          rcases hA : (sortRelated (s.rows.filter (fun r =>
              r.groupingKey == byIdGk target ||
                (r.date == target.date &&
                  r.applicationName == target.applicationName)))).foldl
              (byIdStep entryId)
              (0, fun _ => none, fun _ => none, fun _ => none) with
            ⟨mp, pd, hd, idd⟩
          have hBA : byIdArrays s target entryId =
              ((List.range (mp + 1)).map pd, (List.range (mp + 1)).map hd,
                (List.range (mp + 1)).map idd) := by
            unfold byIdArrays
            rw [hA]
          rw [hBA]
          refine ⟨by simp, by simp,
            fun _ => by simp⟩
        · rw [if_neg hm] at h
          have heq : (⟨target, [], [], []⟩ : ByIdEntry) = eOut := Option.some.inj h
          subst heq
          exact ⟨rfl, rfl, fun hmain => absurd hmain hm⟩

/-- Witness: concrete round-trips.  For `eC5` (one PRB, one issue, no
nulls) the grouped read-back lengths match the input lengths; for the
single-PRB store `sC2single` the by-id result `byIdC2out` has its three
arrays padded to the same positive length. -/
theorem C2_roundtrip_witness :
    (∀ o ∈ eC5.prbs, o ≠ none) ∧ (∀ o ∈ eC5.hiims, o ≠ none) ∧
    (∀ o ∈ eC5.issues, o ≠ none) ∧
    ((childRows (mkPrbRow eC5 4) eC5.prbs 0 2).length = eC5.prbs.length ∧
      (childRows (mkHiimRow eC5 4) eC5.hiims 0 (2 + countSome eC5.prbs)).length =
        eC5.hiims.length ∧
      ((childRows (mkIssueRow eC5 4) eC5.issues 0
          (2 + countSome eC5.prbs + countSome eC5.hiims)).map issueViewOf).length =
        eC5.issues.length) ∧
    get_entry_by_id sC2single 1 = some byIdC2out ∧
    (byIdC2out.prbs.length = byIdC2out.hiims.length ∧
      byIdC2out.hiims.length = byIdC2out.issues.length ∧
      (byIdC2out.row.rowType = RowType.main → 1 ≤ byIdC2out.prbs.length)) := by
  refine ⟨by decide, by decide, by decide, ?_, by decide, ?_⟩
  · exact C2_roundtrip_amended.2.1 eC5 4 (mainRowOf eC5 4 1)
      (childRows (mkPrbRow eC5 4) eC5.prbs 0 2)
      (childRows (mkHiimRow eC5 4) eC5.hiims 0 (2 + countSome eC5.prbs))
      ((childRows (mkIssueRow eC5 4) eC5.issues 0
        (2 + countSome eC5.prbs + countSome eC5.hiims)).map issueViewOf)
      (by decide) (by decide) (by decide) (C2_roundtrip_amended.1 eC5 4)
  · exact C2_roundtrip_amended.2.2.2 sC2single 1 byIdC2out (by decide)

/-- C4 (amended): the comprehensive update applies the main-row fields and
all three child kinds on one connection with a single commit at the end;
any failure rolls the whole operation back, so a partial failure leaves
*no* kind's changes committed — the committed store is exactly the
pre-update store. -/
theorem C4_single_transaction_amended :
    ∀ (s : Store) (entryId : Nat) (d : UpdateData) (now : Nat),
      (update_entry s entryId d now).2 = .failed →
      (update_entry s entryId d now).1 = s := by
  intro s entryId d now h
  unfold update_entry at h ⊢
  cases hf : s.rows.find? (fun r => r.id == entryId) with
  | none => rfl
  | some cur =>
      simp only [hf] at h ⊢
      by_cases hm : cur.rowType = RowType.main
      · rw [if_pos hm] at h ⊢
        cases hc : update_main_entry_comprehensive s entryId d cur now with
        | ok s' => simp only [hc] at h; exact absurd h (by simp)
        | error e => simp only [hc]
      · rw [if_neg hm] at h ⊢
        cases hu : update_single_row s entryId d now with
        | mk s' ro =>
            cases ro with
            | some r => simp only [hu] at h; exact absurd h (by simp)
            | none => simp only [hu]

/-- C4 witness: applying the amended claim to the concrete
partial-failure scenario (PRB phase succeeded, HIIM phase raised): the
committed store is the original one. -/
theorem C4_single_transaction_witness :
    (update_entry sC4 1 updC4 9).1 = sC4 :=
  C4_single_transaction_amended sC4 1 updC4 9 (by decide)

/-- C4 counterexample: on a store whose main row lost its stored
`grouping_key`, the PRB phase of the upsert succeeds (deleting the
existing PRB row), the HIIM phase then raises in
`_create_new_related_row`, and the committed store is the *original* one —
the PRB deletion is rolled back too, so the kinds are not mutated in
independent transactions. -/
theorem C4_per_kind_transaction_counterexample :
    (update_related_rows sC4 gkC4 RowType.prb [] 9).toOption =
      some ⟨[mainKeyless], 3⟩ ∧
    (update_related_rows ⟨[mainKeyless], 3⟩ gkC4 RowType.hiim
        [some hiimPatch] 9).toOption = none ∧
    update_entry sC4 1 updC4 9 = (sC4, .failed) ∧
    sC4.rows.map (fun r => r.id) = [1, 2] := by decide

/-- C9: creation of a logical entry is atomic.  On any failure the
transaction is rolled back and the committed store is unchanged (no
partial row set is ever committed); on success the store gains exactly
the full row set of the logical entry — one main row plus one row per
non-null child item, all carrying the derived grouping key. -/
theorem C9_create_atomicity :
    ∀ (s : Store) (e : EntryData) (now : Nat) (failAt : Option Nat),
      ((create_entry s e now failAt).2 = none → (create_entry s e now failAt).1 = s) ∧
      (∀ mid, (create_entry s e now failAt).2 = some mid →
        mid = s.nextId ∧
        (create_entry s e now failAt).1.rows = s.rows ++ createdRows e now s.nextId ∧
        (createdRows e now s.nextId).length =
          1 + countSome e.prbs + countSome e.hiims + countSome e.issues ∧
        ∀ r ∈ createdRows e now s.nextId,
          r.groupingKey = generate_grouping_key e.date e.applicationName) := by
  intro s e now failAt
  cases failAt with
  | none =>
      refine ⟨fun h => absurd h (by simp [create_entry]), fun mid h => ?_⟩
      simp only [create_entry, Option.some.injEq] at h
      exact ⟨h.symm, rfl, createdRows_length e now s.nextId,
        createdRows_groupingKey e now s.nextId⟩
  | some kk =>
      by_cases hk : kk < (createdRows e now s.nextId).length
      · refine ⟨fun _ => ?_, fun mid h => ?_⟩
        · simp [create_entry, hk]
        · simp [create_entry, hk] at h
      · refine ⟨fun h => ?_, fun mid h => ?_⟩
        · simp [create_entry, hk] at h
        · simp only [create_entry, if_neg hk, Option.some.injEq] at h
          refine ⟨h.symm, ?_, createdRows_length e now s.nextId,
            createdRows_groupingKey e now s.nextId⟩
          simp [create_entry, hk]

/-- C9 witness: a failing insert commits nothing; a successful create
commits the full row set. -/
theorem C9_create_atomicity_witness :
    (create_entry emptyStore eC5 4 (some 0)).1 = emptyStore ∧
    (create_entry emptyStore eC5 4 none).1.rows =
      emptyStore.rows ++ createdRows eC5 4 emptyStore.nextId :=
  ⟨(C9_create_atomicity emptyStore eC5 4 (some 0)).1 (by decide),
   ((C9_create_atomicity emptyStore eC5 4 none).2 1 (by decide)).2.1⟩

/-- C5 counterexample: the store holds three rows (main id 1, prb id 2,
issue id 3) sharing one grouping key; `delete_entry 2` — deleting a child
row by id — removes all three rows, not exactly one. -/
theorem C5_single_row_delete_counterexample :
    sC5.rows.map (fun r => r.id) = [1, 2, 3] ∧
    (sC5.rows.filter (fun r => r.id == 2)).map (fun r => r.rowType) = [.prb] ∧
    delete_entry sC5 2 = (⟨[], 4⟩, true) := by decide

/-- C5 (amended): `delete_entry` on any existing row id — a child row
included — removes *every* row sharing that row's grouping key (deletion
is at logical-entry granularity, spec invariant I5), returning true; every
row of any other grouping key survives byte-identical, `updated_at`
included (the surviving row list is literally the filtered original).  A
nonexistent id deletes nothing and returns false. -/
theorem C5_delete_cascade_amended :
    ∀ (s : Store) (entryId : Nat),
      (s.rows.find? (fun x => x.id == entryId) = none →
        delete_entry s entryId = (s, false)) ∧
      (∀ r, s.rows.find? (fun x => x.id == entryId) = some r →
        (delete_entry s entryId).1.rows =
          s.rows.filter (fun x => !(x.groupingKey == r.groupingKey)) ∧
        (delete_entry s entryId).2 = true ∧
        ∀ x ∈ s.rows, x.groupingKey ≠ r.groupingKey →
          x ∈ (delete_entry s entryId).1.rows) := by
  intro s entryId
  constructor
  · intro hf
    unfold delete_entry
    rw [hf]
  · intro r hf
    unfold delete_entry
    rw [hf]
    simp only
    have hrmem : r ∈ s.rows := List.mem_of_find?_eq_some hf
    refine ⟨trivial, ?_, ?_⟩
    · have hmemf : r ∈ s.rows.filter (fun x => x.groupingKey == r.groupingKey) :=
        List.mem_filter.2 ⟨hrmem, by simp⟩
      simp only [decide_eq_true_eq]
      exact List.length_pos_of_mem hmemf
    · intro x hx hxk
      exact List.mem_filter.2 ⟨hx, by simp [hxk]⟩

/-- C5 witness: deleting the child prb row (id 2) of the concrete store
removes the whole logical entry and returns true. -/
theorem C5_delete_cascade_witness :
    (delete_entry sC5 2).1.rows =
      sC5.rows.filter (fun x =>
        !(x.groupingKey == (mkPrbRow eC5 4 ⟨some "7", "st", "lk"⟩ 0 2).groupingKey)) ∧
    (delete_entry sC5 2).2 = true :=
  ⟨(((C5_delete_cascade_amended sC5 2).2 (mkPrbRow eC5 4 ⟨some "7", "st", "lk"⟩ 0 2)
      (by decide))).1,
   (((C5_delete_cascade_amended sC5 2).2 (mkPrbRow eC5 4 ⟨some "7", "st", "lk"⟩ 0 2)
      (by decide))).2.1⟩

/-- C6 counterexample: inserting the PRB of `prbs=[null, X]` during
create, the mutator stores position 1 even though position 0 is free for
`(grouping_key, 'prb')` — it assigns the slot index, not the next free
position. -/
theorem C6_next_free_position_counterexample :
    (sC3.rows.filter (fun r => r.rowType == RowType.prb)).map
        (fun r => r.rowPosition) = [1] ∧
    specNextFreePosition sC3mainOnly "2025-10-03_CVAR ALL" RowType.prb = 0 ∧
    (1 : Nat) ≠ 0 := by decide

/-- C8 (amended): on *create*, a PRB/HIIM array item supplying an
identifying number but no link gets the canonical template link; an
explicitly supplied link is stored as given and never overridden, and the
derivation is idempotent.  Rows written through the *update* path get no
synthesis: `_create_new_related_row` stores the supplied link verbatim
(SQL NULL when absent) and `_update_existing_related_row` only overwrites
a link with a meaningfully supplied value. -/
theorem C8_link_synthesis_amended :
    (∀ (e : EntryData) (now : Nat) (it : PrbItem) (p j : Nat),
      (mkPrbRow e now it p j).prbLink = some (prbLinkOf it)) ∧
    (∀ it : PrbItem, it.prbLink ≠ "" → prbLinkOf it = it.prbLink) ∧
    (∀ it : PrbItem, it.prbLink = "" → prbIdOf it ≠ "" →
      prbLinkOf it = prbLinkTemplate (prbIdOf it)) ∧
    (∀ it : PrbItem, prbLinkOf { it with prbLink := prbLinkOf it } = prbLinkOf it) ∧
    (∀ (e : EntryData) (now : Nat) (it : HiimItem) (p j : Nat),
      (mkHiimRow e now it p j).hiimLink = some (hiimLinkOf it)) ∧
    (∀ it : HiimItem, it.hiimLink ≠ "" → hiimLinkOf it = it.hiimLink) ∧
    (∀ it : HiimItem, it.hiimLink = "" → hiimIdOf it ≠ "" →
      hiimLinkOf it = hiimLinkTemplate (hiimIdOf it)) ∧
    (∀ it : HiimItem, hiimLinkOf { it with hiimLink := hiimLinkOf it } = hiimLinkOf it) ∧
    (∀ (s : Store) (gk : String) (it : ItemPatch) (i now : Nat) (s₂ : Store),
      create_new_related_row s gk it .prb i now = .ok s₂ →
        s₂.rows.map (fun r => r.prbLink) =
          s.rows.map (fun r => r.prbLink) ++ [it.prbLink]) ∧
    (∀ (it : ItemPatch) (now : Nat) (r : Row),
      (applyItemPatch .prb it now r).prbLink = applyVal r.prbLink it.prbLink) := by
  have tmplP : ∀ n : String, prbLinkTemplate n ≠ "" := by
    intro n h
    have hlen := congrArg String.length h
    rw [prbLinkTemplate, String.length_append, String.length_append] at hlen
    have h1 : ("https://unity.itsm.socgen/saw/Problem/" : String).length = 38 := by decide
    have h2 : ("/general" : String).length = 8 := by decide
    have h3 : ("" : String).length = 0 := by decide
    rw [h1, h2, h3] at hlen
    omega
  have tmplH : ∀ n : String, hiimLinkTemplate n ≠ "" := by
    intro n h
    have hlen := congrArg String.length h
    rw [hiimLinkTemplate, String.length_append, String.length_append] at hlen
    have h1 : ("https://unity.itsm.socgen/saw/custom/HighImpactIncident_c/details/" :
      String).length = 66 := by decide
    have h2 : ("/general" : String).length = 8 := by decide
    have h3 : ("" : String).length = 0 := by decide
    rw [h1, h2, h3] at hlen
    omega
  refine ⟨fun _ _ _ _ _ => rfl, ?_, ?_, ?_, fun _ _ _ _ _ => rfl, ?_, ?_, ?_, ?_,
    fun _ _ _ => rfl⟩
  · intro it hne
    unfold prbLinkOf
    rw [if_neg]
    intro ⟨h1, _⟩
    exact hne h1
  · intro it h1 h2
    unfold prbLinkOf
    rw [if_pos ⟨h1, h2⟩]
  · intro it
    unfold prbLinkOf prbIdOf
    by_cases hl : it.prbLink = ""
    · by_cases hid : it.prbIdNumber.getD "" = ""
      · simp [hl, hid]
      · simp [hl, hid, tmplP]
    · simp [hl]
  · intro it hne
    unfold hiimLinkOf
    rw [if_neg]
    intro ⟨h1, _⟩
    exact hne h1
  · intro it h1 h2
    unfold hiimLinkOf
    rw [if_pos ⟨h1, h2⟩]
  · intro it
    unfold hiimLinkOf hiimIdOf
    by_cases hl : it.hiimLink = ""
    · by_cases hid : it.hiimIdNumber.getD "" = ""
      · simp [hl, hid]
      · simp [hl, hid, tmplH]
    · simp [hl]
  · intro s gk it i now s₂ h
    unfold create_new_related_row at h
    cases hf : s.rows.find? (fun r => r.groupingKey == gk && r.rowType == RowType.main) with
    | none => rw [hf] at h; exact absurd h (by simp)
    | some m =>
        rw [hf] at h
        simp only [Except.ok.injEq] at h
        rw [← h]
        simp

/-- C8 witness: instantiating the amended claim — a supplied link is kept
verbatim, a number-only item gets the template on create, and the
update-path insert stores the (absent) link verbatim as NULL. -/
theorem C8_link_synthesis_witness :
    prbLinkOf ⟨some "101", "open", "http://x"⟩ =
      (⟨some "101", "open", "http://x"⟩ : PrbItem).prbLink ∧
    prbLinkOf ⟨some "101", "open", ""⟩ =
      prbLinkTemplate (prbIdOf ⟨some "101", "open", ""⟩) ∧
    (update_entry sNoChild 1 updC8 9).1.rows.map (fun r => r.prbLink) =
      sNoChild.rows.map (fun r => r.prbLink) ++ [prbPatch123.prbLink] :=
  ⟨C8_link_synthesis_amended.2.1 ⟨some "101", "open", "http://x"⟩ (by decide),
   C8_link_synthesis_amended.2.2.1 ⟨some "101", "open", ""⟩ (by decide) (by decide),
   C8_link_synthesis_amended.2.2.2.2.2.2.2.2.1 sNoChild "2025-10-03_CVAR ALL"
     prbPatch123 0 9 (update_entry sNoChild 1 updC8 9).1 rfl⟩

/-- C8 counterexample: adding a PRB item through the update path with an
identifying number but no link stores SQL NULL as the link —
`_create_new_related_row` performs no template synthesis. -/
theorem C8_update_link_synthesis_counterexample :
    ((update_entry sNoChild 1 updC8 9).1.rows.filter
        (fun r => r.rowType == RowType.prb)).map
      (fun r => (r.prbIdNumber, r.prbLink)) = [(some "123", none)] ∧
    (none : Option String) ≠ some (prbLinkTemplate "123") := by decide

/-- C6 (amended): at every commit boundary of the modelled operations, no
two live rows of the same grouping key and kind share a position —
creating a logical entry under a fresh grouping key, one child-kind
upsert, and a full comprehensive update (with no caller-supplied
`grouping_key` overwrite) all preserve the invariant.  The mechanism,
however, is slot-index assignment, not next-free-position search: every
inserted child row stores the index of its slot in the desired list (on
create, the enumerated array index; on update, the slot position
argument). -/
theorem C6_position_collision_amended :
    (∀ (s : Store) (e : EntryData) (now : Nat) (failAt : Option Nat),
      rowsNoPosCollision s.rows →
      (∀ r ∈ s.rows, r.groupingKey ≠ generate_grouping_key e.date e.applicationName) →
      rowsNoPosCollision (create_entry s e now failAt).1.rows) ∧
    (∀ (s : Store) (gk : String) (k : RowType) (nd : List (Option ItemPatch))
      (now : Nat) (s₂ : Store),
      update_related_rows s gk k nd now = .ok s₂ → StoreWF s →
      rowsNoPosCollision s.rows → rowsNoPosCollision s₂.rows) ∧
    (∀ (s : Store) (entryId : Nat) (d : UpdateData) (cur : Row) (now : Nat) (s₄ : Store),
      update_main_entry_comprehensive s entryId d cur now = .ok s₄ → StoreWF s →
      rowsNoPosCollision s.rows → (∀ v, MainField.groupingKey v ∉ d.fields) →
      rowsNoPosCollision s₄.rows) ∧
    (∀ (e : EntryData) (now : Nat) (it : PrbItem) (p j : Nat),
      (mkPrbRow e now it p j).rowPosition = p) ∧
    (∀ (e : EntryData) (now : Nat) (it : HiimItem) (p j : Nat),
      (mkHiimRow e now it p j).rowPosition = p) ∧
    (∀ (e : EntryData) (now : Nat) (it : IssueItem) (p j : Nat),
      (mkIssueRow e now it p j).rowPosition = p) ∧
    (∀ (s : Store) (gk : String) (it : ItemPatch) (k : RowType) (i now : Nat)
      (s₂ : Store), create_new_related_row s gk it k i now = .ok s₂ →
        s₂.rows.map (fun r => r.rowPosition) =
          s.rows.map (fun r => r.rowPosition) ++ [i]) := by
  refine ⟨?_, ?_, ?_, fun _ _ _ _ _ => rfl, fun _ _ _ _ _ => rfl,
    fun _ _ _ _ _ => rfl, ?_⟩
  · intro s e now failAt hnc hfresh
    have happend : rowsNoPosCollision (s.rows ++ createdRows e now s.nextId) := by
      refine List.pairwise_append.2 ⟨hnc, createdRows_noPosCollision e now s.nextId, ?_⟩
      intro a ha b hb hkey _
      exact absurd (hkey.trans (createdRows_groupingKey e now s.nextId b hb))
        (hfresh a ha)
    cases failAt with
    | none => exact happend
    | some kk =>
        by_cases hk : kk < (createdRows e now s.nextId).length
        · simpa [create_entry, hk] using hnc
        · simpa [create_entry, hk] using happend
  · intro s gk k nd now s₂ h hwf hnc
    obtain ⟨_, _, hframe, hP⟩ := update_related_rows_spec s gk k nd now s₂ h hwf
    exact noPosCollision_transfer s.rows s₂.rows gk k hnc hframe hP
  · intro s entryId d cur now s₄ h hwf hnc hno
    exact (umc_noPosCollision s entryId d cur now s₄ h hwf hnc hno).2
  · intro s gk it k i now s₂ h
    obtain ⟨nr, hrows, _, _, _, _, hpos⟩ := create_new_related_row_ok h
    rw [hrows, List.map_append, List.map_singleton, hpos]

/-- C6 witness: instantiating the amended claim on the concrete creates
and updates used throughout — the resulting stores are collision-free,
and the update-path insert stores the slot position. -/
theorem C6_position_collision_witness :
    rowsNoPosCollision (create_entry emptyStore eC3 7 none).1.rows ∧
    rowsNoPosCollision (update_entry sNoChild 1 updC8 9).1.rows ∧
    (update_entry sNoChild 1 updC8 9).1.rows.map (fun r => r.rowPosition) =
      sNoChild.rows.map (fun r => r.rowPosition) ++ [0] :=
  ⟨C6_position_collision_amended.1 emptyStore eC3 7 none (by decide) (by decide),
   C6_position_collision_amended.2.2.1 sNoChild 1 updC8 (mainRowOf baseED 3 1) 9
     (update_entry sNoChild 1 updC8 9).1 rfl (by decide) (by decide)
     (fun v hv => by simp [updC8] at hv),
   C6_position_collision_amended.2.2.2.2.2.2 sNoChild "2025-10-03_CVAR ALL"
     prbPatch123 .prb 0 9 (update_entry sNoChild 1 updC8 9).1 rfl⟩

/-- C7: in the `time_loss` row-level filter, an issue row qualifies
exactly when its own `time_loss` is non-empty and non-placeholder after
trimming, while a `main` row qualifies only when no issue row of the same
grouping key carries such a time loss; in particular, for a main row with
`time_loss="A"` and a sibling issue row with `time_loss="B"`, only the
issue row is returned. -/
theorem C7_time_loss_precedence :
    (∀ (s : Store) (app : String) (startD endD : Option String) (m : Row),
      m ∈ s.rows → m.applicationName = app → inDateRange startD endD m = true →
      m.rowType = .main →
      (m ∈ (get_individual_rows_by_application s app startD endD (some .timeLoss)).map
          (fun fr => fr.base) ↔
        meaningfulTimeLoss m.timeLoss = true ∧
          ∀ e2 ∈ s.rows, e2.groupingKey = m.groupingKey → e2.rowType = .issue →
            meaningfulTimeLoss e2.timeLoss = false)) ∧
    (∀ (s : Store) (app : String) (startD endD : Option String) (i : Row),
      i ∈ s.rows → i.applicationName = app → inDateRange startD endD i = true →
      i.rowType = .issue →
      (i ∈ (get_individual_rows_by_application s app startD endD (some .timeLoss)).map
          (fun fr => fr.base) ↔ meaningfulTimeLoss i.timeLoss = true)) ∧
    (∀ (s : Store) (app : String) (startD endD : Option String) (m i : Row),
      m ∈ s.rows → i ∈ s.rows → m.applicationName = app → i.applicationName = app →
      inDateRange startD endD m = true → inDateRange startD endD i = true →
      m.rowType = .main → i.rowType = .issue → i.groupingKey = m.groupingKey →
      m.timeLoss = some "A" → i.timeLoss = some "B" →
      (m ∉ (get_individual_rows_by_application s app startD endD (some .timeLoss)).map
          (fun fr => fr.base)) ∧
      i ∈ (get_individual_rows_by_application s app startD endD (some .timeLoss)).map
          (fun fr => fr.base)) := by
  have hmainIff : ∀ (s : Store) (app : String) (startD endD : Option String) (m : Row),
      m ∈ s.rows → m.applicationName = app → inDateRange startD endD m = true →
      m.rowType = .main →
      (m ∈ (get_individual_rows_by_application s app startD endD (some .timeLoss)).map
          (fun fr => fr.base) ↔
        meaningfulTimeLoss m.timeLoss = true ∧
          ∀ e2 ∈ s.rows, e2.groupingKey = m.groupingKey → e2.rowType = .issue →
            meaningfulTimeLoss e2.timeLoss = false) := by
    intro s app startD endD m hm happ hrange hmt
    rw [mem_individual_rows]
    constructor
    · rintro ⟨-, hpred⟩
      simp only [rowFilterPred, hmt, happ, hrange, decide_True, Bool.true_and,
        Bool.and_eq_true, Bool.or_eq_true] at hpred
      rcases hpred with hpred | hpred
      · simp at hpred
      · obtain ⟨⟨-, hml⟩, hany⟩ := hpred
        refine ⟨hml, ?_⟩
        intro e2 he2 hgk htype
        by_contra hc
        rw [Bool.not_eq_false] at hc
        have : s.rows.any (fun e2 =>
            e2.groupingKey == m.groupingKey && e2.rowType == RowType.issue &&
              meaningfulTimeLoss e2.timeLoss) = true :=
          List.any_eq_true.2 ⟨e2, he2, by simp [hgk, htype, hc]⟩
        rw [this] at hany
        simp at hany
    · rintro ⟨hml, hall⟩
      refine ⟨hm, ?_⟩
      simp only [rowFilterPred, hmt, happ, hrange, decide_True, Bool.true_and,
        Bool.and_eq_true, Bool.or_eq_true]
      refine Or.inr ⟨⟨by simp, hml⟩, ?_⟩
      simp only [Bool.not_eq_true']
      rw [← Bool.not_eq_true, List.any_eq_true]
      rintro ⟨e2, he2, hp⟩
      simp only [Bool.and_eq_true, beq_iff_eq] at hp
      obtain ⟨⟨hgk, htype⟩, hml2⟩ := hp
      rw [hall e2 he2 hgk htype] at hml2
      exact absurd hml2 (by simp)
  have hissueIff : ∀ (s : Store) (app : String) (startD endD : Option String) (i : Row),
      i ∈ s.rows → i.applicationName = app → inDateRange startD endD i = true →
      i.rowType = .issue →
      (i ∈ (get_individual_rows_by_application s app startD endD (some .timeLoss)).map
          (fun fr => fr.base) ↔ meaningfulTimeLoss i.timeLoss = true) := by
    intro s app startD endD i hi happ hrange hit
    rw [mem_individual_rows]
    constructor
    · rintro ⟨-, hpred⟩
      simp only [rowFilterPred, hit, happ, hrange, decide_True, Bool.true_and,
        Bool.and_eq_true, Bool.or_eq_true] at hpred
      rcases hpred with hpred | hpred
      · exact hpred.2
      · simp at hpred
    · intro hml
      refine ⟨hi, ?_⟩
      simp [rowFilterPred, hit, happ, hrange, hml]
  refine ⟨hmainIff, hissueIff, ?_⟩
  intro s app startD endD m i hm hi happ happi hrangem hrangei hmt hit hgk hmA hiB
  constructor
  · intro hin
    obtain ⟨-, hall⟩ := (hmainIff s app startD endD m hm happ hrangem hmt).1 hin
    have := hall i hi hgk hit
    rw [hiB] at this
    exact absurd this (by decide)
  · refine (hissueIff s app startD endD i hi happi hrangei hit).2 ?_
    rw [hiB]; decide

/-- C7 witness: in the concrete two-row store, the time-loss filter
returns the issue row's "B" and never the main row's "A". -/
theorem C7_time_loss_precedence_witness :
    (mainA ∉ (get_individual_rows_by_application sAB "CVAR ALL" none none
        (some .timeLoss)).map (fun fr => fr.base)) ∧
    issueB ∈ (get_individual_rows_by_application sAB "CVAR ALL" none none
        (some .timeLoss)).map (fun fr => fr.base) :=
  C7_time_loss_precedence.2.2 sAB "CVAR ALL" none none mainA issueB
    (by decide) (by decide) (by decide) (by decide) (by decide) (by decide)
    (by decide) (by decide) (by decide) (by decide) (by decide)

/-- C10: when the upsert patches an existing child row, every
kind-specific field whose supplied value is null or whitespace-only is
left unchanged (a meaningful value is written untrimmed), with the single
exception of `time_loss` on issue rows, where an explicitly supplied empty
string clears the stored value (a null or whitespace-only `time_loss`
still leaves it unchanged); consequently a caller cannot blank an existing
PRB identifier, status or link through the upsert, and an item with no
qualifying field leaves the row — `updated_at` included — untouched. -/
theorem C10_patch_blank_protection :
    (∀ (old v : Option String), (v = none ∨ pyStrip (v.getD "") = "") →
      applyVal old v = old) ∧
    (∀ (old : Option String) (x : String), pyStrip x ≠ "" →
      applyVal old (some x) = some x) ∧
    (∀ old : Option String, (tlResult old (some (some ""))).1 = some "") ∧
    (∀ old : Option String, (tlResult old (some none)).1 = old) ∧
    (∀ (old : Option String) (x : String), x ≠ "" → pyStrip x = "" →
      (tlResult old (some (some x))).1 = old) ∧
    (∀ (it : ItemPatch) (now : Nat) (r : Row),
      (applyItemPatch .prb it now r).prbIdNumber = applyVal r.prbIdNumber it.prbIdNumber ∧
      (applyItemPatch .prb it now r).prbIdStatus = applyVal r.prbIdStatus it.prbIdStatus ∧
      (applyItemPatch .prb it now r).prbLink = applyVal r.prbLink it.prbLink) ∧
    (∀ (it : ItemPatch) (now : Nat) (r : Row),
      (applyItemPatch .hiim it now r).hiimIdNumber = applyVal r.hiimIdNumber it.hiimIdNumber ∧
      (applyItemPatch .hiim it now r).hiimIdStatus = applyVal r.hiimIdStatus it.hiimIdStatus ∧
      (applyItemPatch .hiim it now r).hiimLink = applyVal r.hiimLink it.hiimLink) ∧
    (∀ (it : ItemPatch) (now : Nat) (r : Row),
      (applyItemPatch .issue it now r).issueDescription =
        applyVal r.issueDescription (descValue it) ∧
      (applyItemPatch .issue it now r).timeLoss = (tlResult r.timeLoss it.timeLoss).1) ∧
    (∀ (s : Store) (rid : Nat) (it : ItemPatch) (k : RowType) (now : Nat),
      patchDidAny k it = false → update_existing_related_row s rid it k now = s) ∧
    (∀ (it : ItemPatch) (now : Nat) (r : Row) (pid : String),
      r.prbIdNumber = some pid →
      (it.prbIdNumber = none ∨ pyStrip (it.prbIdNumber.getD "") = "") →
      (applyItemPatch .prb it now r).prbIdNumber = some pid) := by
  have hskip : ∀ (old v : Option String), (v = none ∨ pyStrip (v.getD "") = "") →
      applyVal old v = old := by
    intro old v hv
    unfold applyVal meaningfulVal
    rcases hv with hv | hv
    · subst hv; rfl
    · cases v with
      | none => rfl
      | some x =>
          simp only [Option.getD_some] at hv
          simp [hv]
  refine ⟨hskip, ?_, ?_, ?_, ?_, fun _ _ _ => ⟨rfl, rfl, rfl⟩,
    fun _ _ _ => ⟨rfl, rfl, rfl⟩, fun _ _ _ => ⟨rfl, rfl⟩, ?_, ?_⟩
  · intro old x hx
    unfold applyVal meaningfulVal
    simp [hx]
  · intro old
    rfl
  · intro old
    rfl
  · intro old x hx hstrip
    simp [tlResult, tlValue, hstrip, hx]
  · intro s rid it k now h
    unfold update_existing_related_row
    simp [h]
  · intro it now r pid hr hv
    have := hskip r.prbIdNumber it.prbIdNumber hv
    show (applyItemPatch RowType.prb it now r).prbIdNumber = some pid
    rw [show (applyItemPatch RowType.prb it now r).prbIdNumber =
      applyVal r.prbIdNumber it.prbIdNumber from rfl, this, hr]

/-- C10 witness: a whitespace-only PRB number leaves the stored number,
a null `time_loss` leaves the stored value, and an explicit empty string
clears it. -/
theorem C10_patch_blank_protection_witness :
    applyVal (some "PRB-7") (some " ") = some "PRB-7" ∧
    (tlResult (some "15 min") (some none)).1 = some "15 min" ∧
    (tlResult (some "15 min") (some (some ""))).1 = some "" ∧
    (applyItemPatch .prb { emptyPatch with prbIdNumber := some " " } 9
        (mkPrbRow eC5 4 ⟨some "7", "st", "lk"⟩ 0 2)).prbIdNumber = some "7" :=
  ⟨C10_patch_blank_protection.1 (some "PRB-7") (some " ") (Or.inr (by decide)),
   C10_patch_blank_protection.2.2.2.1 (some "15 min"),
   C10_patch_blank_protection.2.2.1 (some "15 min"),
   C10_patch_blank_protection.2.2.2.2.2.2.2.2.2
     { emptyPatch with prbIdNumber := some " " } 9
     (mkPrbRow eC5 4 ⟨some "7", "st", "lk"⟩ 0 2) "7" (by decide) (Or.inr (by decide))⟩

end ProdVision
